import Mathlib

/-!
# Music player: song / favorites store and playlist reconciliation

A shallow embedding of `src/db.js` and of the core of `src/app.js`.

JavaScript values are embedded as `JsVal`; an object is seen through the keys
the program reads, an absent key reading as `undefined`.  The IndexedDB object
stores are lists of records kept in key order; `put` is an upsert on the key
path and both `put` and `delete` fail with a `DataError` on a value that is not
a valid key.  `Date.now()`, `crypto.randomUUID()`, `Math.random()` and
`String.prototype.toLowerCase` are inputs of the functions that call them.
-/

set_option autoImplicit false

namespace MusicPlayer

/-! ## JavaScript values -/

/-- A binary payload (`Blob`): the program reads its byte length and its declared media type. -/
structure Blob where
  size : Nat
  type : String
  deriving DecidableEq, Repr

/-- The JavaScript values that occur in records.  Numbers are restricted to integers. -/
inductive JsVal where
  | undefined
  | null
  | bool (b : Bool)
  | num (n : Int)
  | str (s : String)
  | blob (b : Blob)
  deriving DecidableEq, Repr

namespace JsVal

/-- The truthiness of a value, as in `if (v)`, `!v`, `v || w`. -/
def truthy : JsVal → Bool
  | undefined => false
  | null => false
  | bool b => b
  | num n => decide (n ≠ 0)
  | str s => decide (s ≠ "")
  | blob _ => true

/-- The value of `a || b`. -/
def or (a b : JsVal) : JsVal := if a.truthy then a else b

/-- The test `typeof v === "string"`. -/
def isString : JsVal → Bool
  | str _ => true
  | _ => false

/-- The test `v instanceof Blob`. -/
def isBlob : JsVal → Bool
  | blob _ => true
  | _ => false

/-- The values IndexedDB accepts as keys, among those embedded: numbers and strings. -/
def validKey : JsVal → Bool
  | num _ => true
  | str _ => true
  | _ => false

/-- The IndexedDB key order on valid keys: numbers before strings, numbers by value and strings
character by character. -/
def keyLe : JsVal → JsVal → Bool
  | num a, num b => decide (a ≤ b)
  | num _, str _ => true
  | str a, str b => decide (a.data ≤ b.data)
  | _, _ => false

end JsVal

/-! ## Records -/

/-- A song object: a record of the `songs` store, or an entry of the in-memory list `songs`.
Keys an object does not have read as `undefined`. -/
structure Song where
  id : JsVal := .undefined
  name : JsVal := .undefined
  artist : JsVal := .undefined
  blob : JsVal := .undefined
  url : JsVal := .undefined
  cover : JsVal := .undefined
  playCount : JsVal := .undefined
  lastPlayed : JsVal := .undefined
  lyrics : JsVal := .undefined
  folder : JsVal := .undefined
  favorite : JsVal := .undefined
  isVirtual : JsVal := .undefined
  deriving DecidableEq, Repr

/-- A record of the `favorites` store: the snapshot `clone` built by `addFavorite`. -/
structure Favorite where
  songId : JsVal := .undefined
  name : JsVal := .undefined
  artist : JsVal := .undefined
  blob : JsVal := .undefined
  url : JsVal := .undefined
  cover : JsVal := .undefined
  lyrics : JsVal := .undefined
  folder : JsVal := .undefined
  addedAt : JsVal := .undefined
  deriving DecidableEq, Repr

/-- The database: the object store `songs` (key path `id`) and the object store
`favorites` (key path `songId`), each as the list `getAll()` returns. -/
structure DB where
  songs : List Song := []
  favorites : List Favorite := []
  deriving DecidableEq, Repr

/-! ## Object stores -/

section Store

variable {α : Type}

/-- The call `store.put(rec)` on an object store with key path `key`: the record replaces the one
stored under the same key, if any, and takes its place in key order. -/
def storePut (key : α → JsVal) (rec : α) (store : List α) : Except String (List α) :=
  if (key rec).validKey then
    .ok (List.orderedInsert (fun a b => JsVal.keyLe (key a) (key b) = true) rec
      (store.filter (fun r => decide (key r ≠ key rec))))
  else .error "DataError"

/-- The call `store.delete(k)`: removes the record stored under `k`, if any. -/
def storeDelete (key : α → JsVal) (k : JsVal) (store : List α) : Except String (List α) :=
  if k.validKey then .ok (store.filter (fun r => decide (key r ≠ k)))
  else .error "DataError"

end Store

/-! ## db.js -/

/-- The object `payload` of `addSongToDB`. -/
def songPayload (songData : Song) (stableId : JsVal) : Song :=
  { id := stableId
    name := songData.name.or (.str "Untitled")
    artist := songData.artist.or (.str "Unknown")
    blob := songData.blob.or .null
    url := songData.url.or .null
    cover := songData.cover.or .null
    playCount := songData.playCount.or (.num 0)
    lastPlayed := songData.lastPlayed.or .null
    lyrics := songData.lyrics.or .null
    folder := songData.folder.or .null }

/-- The function `addSongToDB(songData)`; `uuid` is the value `crypto.randomUUID()` returns.
The result is the resolved identifier and the database afterwards. -/
def addSongToDB (db : DB) (songData : Song) (uuid : String) : Except String (JsVal × DB) :=
  let stableId := songData.id.or (.str uuid)
  let payload := songPayload songData stableId
  match storePut Song.id payload db.songs with
  | .ok songs => .ok (stableId, { db with songs := songs })
  | .error e => .error e

/-- The function `getAllSongsFromDB()`. -/
def getAllSongsFromDB (db : DB) : List Song := db.songs

/-- The function `deleteSongFromDB(id)`. -/
def deleteSongFromDB (db : DB) (id : JsVal) : Except String DB :=
  match storeDelete Song.id id db.songs with
  | .ok songs => .ok { db with songs := songs }
  | .error e => .error e

/-- The object `clone` of `addFavorite`; `now` is the value of `Date.now()`. -/
def favoriteClone (song : Song) (now : Int) : Favorite :=
  { songId := song.id
    name := song.name
    artist := song.artist
    blob := song.blob.or .null
    url := song.url.or .null
    cover := song.cover.or .null
    lyrics := song.lyrics.or .null
    folder := song.folder.or .null
    addedAt := .num now }

/-- The function `addFavorite(song)`; `none` is a missing argument (`null`, `undefined`). -/
def addFavorite (db : DB) (song : Option Song) (now : Int) : Except String DB :=
  match song with
  | none => .error "addFavorite requires full song object with stable id"
  | some song =>
    if !song.id.truthy then .error "addFavorite requires full song object with stable id"
    else
      match storePut Favorite.songId (favoriteClone song now) db.favorites with
      | .ok favorites => .ok { db with favorites := favorites }
      | .error e => .error e

/-- The function `removeFavorite(songId)`. -/
def removeFavorite (db : DB) (songId : JsVal) : Except String DB :=
  match storeDelete Favorite.songId songId db.favorites with
  | .ok favorites => .ok { db with favorites := favorites }
  | .error e => .error e

/-- The function `getFavorites()`. -/
def getFavorites (db : DB) : List Favorite := db.favorites

/-! ## app.js: playlist reconciliation -/

/-- The flag `isValid` computed for a record in `loadPlaylist`. -/
def isValid (s : Song) : Bool :=
  s.name.isString &&
    ((match s.blob with
      | .blob b => decide (b.size > 0)
      | _ => false) || s.url.isString)

/-- The loop `for (const s of allSongs)` of `loadPlaylist`, from the records still to visit, the
`songs` store and the array `validSongs`; the result is the store and `validSongs` after it. -/
def validateLoop : List Song → List Song → List Song → Except String (List Song × List Song)
  | [], store, validSongs => .ok (store, validSongs)
  | s :: rest, store, validSongs =>
    if !isValid s then
      if s.id.truthy then
        match storeDelete Song.id s.id store with
        | .ok store1 => validateLoop rest store1 validSongs
        | .error e => .error e
      else validateLoop rest store validSongs
    else validateLoop rest store (validSongs ++ [s])

/-- The virtual entry `loadPlaylist` maps a favorite snapshot to. -/
def virtualEntry (f : Favorite) : Song :=
  { id := f.songId
    name := f.name
    artist := f.artist
    cover := f.cover
    url := if f.url.isString && f.url.truthy then f.url else .null
    blob := if f.blob.isBlob then f.blob else .null
    isVirtual := .bool true }

/-- The array `missingFavs` of `loadPlaylist`. -/
def missingFavs (validSongs : List Song) (favSnapshots : List Favorite) : List Song :=
  (favSnapshots.filter (fun f => !validSongs.any (fun s => decide (s.id = f.songId)))).map
    virtualEntry

/-- The call `s.includes(q)` on strings. -/
def includes (s q : String) : Bool := decide (q.data <:+: s.data)

/-- The expression `v?.toLowerCase().includes(q)`, as the truthiness of its value; a value that is
neither nullish nor a string has no method `toLowerCase`. -/
def lowerIncludes (toLowerCase : String → String) (v : JsVal) (q : String) : Except String Bool :=
  match v with
  | .undefined => .ok false
  | .null => .ok false
  | .str s => .ok (includes (toLowerCase s) q)
  | _ => .error "TypeError"

/-- The callback of the search filter of `loadPlaylist`, `q` being the lowered filter. -/
def matchesFilter (toLowerCase : String → String) (q : String) (s : Song) : Except String Bool :=
  match lowerIncludes toLowerCase s.name q with
  | .ok true => .ok true
  | .ok false => lowerIncludes toLowerCase s.artist q
  | .error e => .error e

/-- The call `xs.filter(p)` for a callback that may throw. -/
def filterE {α : Type} (p : α → Except String Bool) : List α → Except String (List α)
  | [] => .ok []
  | x :: xs =>
    match p x with
    | .error e => .error e
    | .ok b =>
      match filterE p xs with
      | .error e => .error e
      | .ok ys => .ok (if b then x :: ys else ys)

/-- The function `loadPlaylist(filter)` up to the assignment `songs = combined`: the result is the
database after the pass and the new value of `songs`. -/
def loadPlaylist (toLowerCase : String → String) (db : DB) (filter : String) :
    Except String (DB × List Song) :=
  let allSongs := getAllSongsFromDB db
  let favSnapshots := getFavorites db
  match validateLoop allSongs db.songs [] with
  | .error e => .error e
  | .ok (store, validSongs) =>
    let combined := validSongs ++ missingFavs validSongs favSnapshots
    let db1 : DB := { db with songs := store }
    if filter ≠ "" then
      match filterE (matchesFilter toLowerCase (toLowerCase filter)) combined with
      | .ok filtered => .ok (db1, filtered)
      | .error e => .error e
    else .ok (db1, combined)

/-- Whether the loop of `loadPlaylist` over `todo` deletes the key of the record `r`: some
record of `todo` fails validation, has a truthy `id`, and that `id` is the key of `r`. -/
def prunedBy (todo : List Song) (r : Song) : Bool :=
  todo.any (fun s => !isValid s && s.id.truthy && decide (r.id = s.id))

/-! ## app.js: ingest -/

/-- The argument `input` of `storeSong`: a `File`, or another object, read through its keys
`blob`, `name` and `folder`. -/
inductive IngestInput where
  | file (name : String) (type : String) (size : Nat)
  | object (blob name folder : JsVal)
  deriving DecidableEq, Repr

/-- The console message `storeSong` ends on. -/
inductive IngestOutcome where
  | emptyInput
  | invalidInput
  | invalidSongData
  | skippedNonAudio
  | duplicateSkipped
  | stored
  deriving DecidableEq, Repr

/-- The expression `name.split('.').pop()`: what follows the last `.` of `name`, or all of `name`
when it has no `.`. -/
def lastSegment (name : String) : String :=
  ⟨(name.data.reverse.takeWhile (fun c => decide (c ≠ '.'))).reverse⟩

/-- The search for the pattern `\.[^/.]+$` from the left, removing the match: the match starts at
a `.` that is followed, up to the end, by one or more characters other than `/` and `.`. -/
def stripMatch : List Char → List Char
  | [] => []
  | c :: cs =>
    if c = '.' ∧ cs ≠ [] ∧ cs.all (fun d => decide (d ≠ '/') && decide (d ≠ '.')) = true then []
    else c :: stripMatch cs

/-- The expression `name.replace(/\.[^/.]+$/, "")`. -/
def stripExtension (name : String) : String := ⟨stripMatch name.data⟩

/-- The call `s.startsWith(p)` on strings. -/
def startsWith (s p : String) : Bool := p.data.isPrefixOf s.data

/-- The array `validExtensions`. -/
def validExtensions : List String := ["mp3", "wav", "ogg", "m4a"]

/-- The object `song` that `storeSong` hands to `addSongToDB`. -/
def ingestSong (cleanedName : String) (blob folder : JsVal) : Song :=
  { name := .str cleanedName
    artist := .str "Local"
    blob := blob
    cover := .null
    favorite := .bool false
    playCount := .num 0
    lastPlayed := .null
    folder := folder }

/-- The function `storeSong(input, folder = null)`; `none` is a falsy `input`.  The result is the
console message the call ends on and the database afterwards. -/
def storeSong (toLowerCase : String → String) (db : DB) (input : Option IngestInput)
    (folder : JsVal) (uuid : String) : Except String (IngestOutcome × DB) :=
  let folder0 := if folder = .undefined then JsVal.null else folder
  match input with
  | none => .ok (.emptyInput, db)
  | some input =>
    let fields : Option (JsVal × JsVal × JsVal × JsVal) :=
      match input with
      | .file name type size => some (.str name, .str type, .blob ⟨size, type⟩, folder0)
      | .object blob name folder1 =>
        if blob.truthy && name.truthy then
          some (name,
            (match blob with
              | .blob b => JsVal.str b.type
              | _ => JsVal.undefined),
            blob, folder1.or folder0)
        else none
    match fields with
    | none => .ok (.invalidInput, db)
    | some (name, type, blob, folder2) =>
      if !name.truthy || !blob.truthy then .ok (.invalidSongData, db)
      else
        match name, type with
        | .str name, .str type =>
          let ext := toLowerCase (lastSegment name)
          if !startsWith type "audio/" && !validExtensions.contains ext then
            .ok (.skippedNonAudio, db)
          else
            let existing := getAllSongsFromDB db
            let cleanedName := stripExtension name
            let isDuplicate := existing.any (fun s =>
              decide (s.name = .str cleanedName) && decide (s.folder = folder2))
            if isDuplicate then .ok (.duplicateSkipped, db)
            else
              match addSongToDB db (ingestSong cleanedName blob folder2) uuid with
              | .ok (_, db1) => .ok (.stored, db1)
              | .error e => .error e
        | _, _ => .error "TypeError"

/-- The function `toLowerCase` on strings of ASCII characters. -/
def asciiLower (s : String) : String := ⟨s.data.map Char.toLower⟩

/-! ## app.js: smart shuffle

Numbers here are the elements of an ordered field `K`, and `none` is `NaN`; arithmetic is exact.
The successive values of `Math.random()` are `rand 0`, `rand 1`, ... -/

section Smart

variable {K : Type} [LinearOrderedField K] [FloorRing K]

/-- The number `1/((s.playCount||1))`.  A play count that is a string or a `Blob` is read as
`NaN`. -/
def weight (s : Song) : Option K :=
  match s.playCount.or (.num 1) with
  | .num n => some (1 / (n : K))
  | .bool true => some 1
  | _ => none

/-- The sum `a + b` of numbers. -/
def jsAdd (a b : Option K) : Option K :=
  match a, b with
  | some x, some y => some (x + y)
  | _, _ => none

/-- The difference `a - b` of numbers. -/
def jsSub (a b : Option K) : Option K :=
  match a, b with
  | some x, some y => some (x - y)
  | _, _ => none

/-- The product `a * b` of numbers. -/
def jsMul (a b : Option K) : Option K :=
  match a, b with
  | some x, some y => some (x * y)
  | _, _ => none

/-- The test `r <= 0`. -/
def jsLeZero (r : Option K) : Bool :=
  match r with
  | some x => decide (x ≤ 0)
  | none => false

/-- The number `total` of `pickSmartNext`. -/
def totalWeight (songs : List Song) : Option K :=
  songs.foldl (fun acc s => jsAdd acc (weight s)) (some 0)

/-- The loop `for (const s of songs)` of `pickSmartNext` from the remainder `r`: the entry it
returns, or `none` when it runs to its end. -/
def weightedLoop : List Song → Option K → Option Song
  | [], _ => none
  | s :: rest, r =>
    let r1 := jsSub r (weight s)
    if jsLeZero r1 then some s else weightedLoop rest r1

/-- The expression `xs[Math.floor(u * xs.length)]`; `none` is `undefined`. -/
def randomElement (xs : List Song) (u : K) : Option Song :=
  let i : Int := ⌊u * (xs.length : K)⌋
  if i < 0 then none else xs.get? i.toNat

/-- Lines 319 to 325 of `pickSmartNext`: the weighted choice drawn by `u`, with its fallback
drawn by `v`. -/
def weightedPick (songs : List Song) (u v : K) : Option Song :=
  let total : Option K := totalWeight songs
  let r := jsMul (some u) total
  match weightedLoop songs r with
  | some s => some s
  | none => randomElement songs v

/-- The function `pickSmartNext()` on the list `songs`; `none` is `undefined`. -/
def pickSmartNext (songs : List Song) (rand : Nat → K) : Option Song :=
  let favs := songs.filter (fun s => s.favorite.truthy)
  if favs.length ≠ 0 then
    if rand 0 < 6 / 10 then randomElement favs (rand 1)
    else weightedPick songs (rand 1) (rand 2)
  else weightedPick songs (rand 0) (rand 1)

end Smart

/-! ## app.js: the weighted choice in double precision

A double is kept as the number `mant * 2 ^ exp`.  Every operation rounds its exact result to 53
significant bits, to nearest and ties to even.  The exponent is unbounded: overflow, underflow
and signed zeros are not modelled, and `none` is `NaN`. -/

/-- A double, the number `mant * 2 ^ exp`. -/
structure Double where
  mant : Int
  exp : Int
  deriving DecidableEq, Repr

namespace Double

/-- The numerator of the double, as the fraction `num / den`. -/
def num (d : Double) : Int := d.mant * 2 ^ d.exp.toNat

/-- The denominator of the double, as the fraction `num / den`: a power of two. -/
def den (d : Double) : Nat := 2 ^ (-d.exp).toNat

/-- The number of binary digits of `n`, counted with at most `fuel` halvings. -/
def bitLength : Nat → Nat → Nat
  | 0, _ => 0
  | fuel + 1, n => if n = 0 then 0 else bitLength fuel (n / 2) + 1

/-- The double nearest to the fraction `num / den`, ties going to the even significand: the
fraction is scaled to `N / D` with `2 ^ 52 ≤ N / D < 2 ^ 53` and the quotient is rounded. -/
def roundRatio (num : Int) (den : Nat) : Double :=
  let a := num.natAbs
  if a = 0 ∨ den = 0 then ⟨0, 0⟩
  else
    let sN := bitLength den den + 53 - bitLength a a
    let sD := bitLength a a - (bitLength den den + 53)
    let N := a * 2 ^ sN
    let D0 := den * 2 ^ sD
    let up : Nat := if 2 ^ 53 * D0 ≤ N then 1 else 0
    let D := den * 2 ^ (sD + up)
    let q := N / D
    let r := N % D
    let m := if 2 * r > D ∨ (2 * r = D ∧ q % 2 = 1) then q + 1 else q
    ⟨if num < 0 then -(m : Int) else (m : Int), ((sD + up : Nat) : Int) - (sN : Int)⟩

/-- The number of an array length, which is below `2 ^ 32` and so a double. -/
def ofNat (n : Nat) : Double := ⟨n, 0⟩

/-- The sum `a + b`. -/
def add (a b : Double) : Double :=
  roundRatio (a.num * b.den + b.num * a.den) (a.den * b.den)

/-- The difference `a - b`. -/
def sub (a b : Double) : Double :=
  roundRatio (a.num * b.den - b.num * a.den) (a.den * b.den)

/-- The product `a * b`. -/
def mul (a b : Double) : Double :=
  roundRatio (a.num * b.num) (a.den * b.den)

/-- The quotient `1 / n` for an integer `n` other than 0. -/
def oneOver (n : Int) : Double := roundRatio (if n < 0 then -1 else 1) n.natAbs

/-- The test `d <= 0`. -/
def leZero (d : Double) : Bool := decide (d.mant ≤ 0)

/-- The integer `Math.floor(d)`. -/
def floor (d : Double) : Int := d.num / (d.den : Int)

end Double

namespace Ieee

/-- The number `1/((s.playCount||1))` in double precision.  A play count that is a string or a
`Blob` is read as `NaN`. -/
def weight (s : Song) : Option Double :=
  match s.playCount.or (.num 1) with
  | .num n => some (Double.oneOver n)
  | .bool true => some (Double.ofNat 1)
  | _ => none

/-- The sum `a + b` of numbers. -/
def jsAdd (a b : Option Double) : Option Double :=
  match a, b with
  | some x, some y => some (x.add y)
  | _, _ => none

/-- The difference `a - b` of numbers. -/
def jsSub (a b : Option Double) : Option Double :=
  match a, b with
  | some x, some y => some (x.sub y)
  | _, _ => none

/-- The product `a * b` of numbers. -/
def jsMul (a b : Option Double) : Option Double :=
  match a, b with
  | some x, some y => some (x.mul y)
  | _, _ => none

/-- The test `r <= 0`. -/
def jsLeZero (r : Option Double) : Bool :=
  match r with
  | some x => x.leZero
  | none => false

/-- The number `total` of `pickSmartNext`. -/
def totalWeight (songs : List Song) : Option Double :=
  songs.foldl (fun acc s => jsAdd acc (weight s)) (some (Double.ofNat 0))

/-- The loop `for (const s of songs)` of `pickSmartNext` from the remainder `r`: the entry it
returns, or `none` when it runs to its end. -/
def weightedLoop : List Song → Option Double → Option Song
  | [], _ => none
  | s :: rest, r =>
    let r1 := jsSub r (weight s)
    if jsLeZero r1 then some s else weightedLoop rest r1

/-- The expression `xs[Math.floor(u * xs.length)]`; `none` is `undefined`. -/
def randomElement (xs : List Song) (u : Double) : Option Song :=
  let i : Int := (u.mul (Double.ofNat xs.length)).floor
  if i < 0 then none else xs.get? i.toNat

/-- Lines 319 to 325 of `pickSmartNext`: the weighted choice drawn by `u`, with its fallback
drawn by `v`. -/
def weightedPick (songs : List Song) (u v : Double) : Option Song :=
  let total := totalWeight songs
  let r := jsMul (some u) total
  match weightedLoop songs r with
  | some s => some s
  | none => randomElement songs v

/-- The remainder `r` of the loop of `pickSmartNext` after the first `k` entries. -/
def remainder (songs : List Song) (r : Option Double) (k : Nat) : Option Double :=
  (songs.take k).foldl (fun acc s => jsSub acc (weight s)) r

end Ieee

/-- A value `Math.random()` can return: a double that is at least 0 and below 1. -/
def unitDraw (v : Double) : Prop :=
  0 ≤ v.mant ∧ v.mant < 2 ^ 53 ∧ v.num < (v.den : Int)

/-- An entry with the given identifier and play count. -/
def counted (id : String) (playCount : Int) : Song :=
  { id := .str id
    name := .str id
    artist := .str "Local"
    blob := .blob ⟨5, "audio/mpeg"⟩
    url := .null
    playCount := .num playCount }

/-! ## db.js: updates -/

/-- The argument `updates` of `updateSongInDB`: for each key, the value the object gives it, or
`none` when the object does not have the key. -/
structure SongUpdates where
  id : Option JsVal := none
  name : Option JsVal := none
  artist : Option JsVal := none
  blob : Option JsVal := none
  url : Option JsVal := none
  cover : Option JsVal := none
  playCount : Option JsVal := none
  lastPlayed : Option JsVal := none
  lyrics : Option JsVal := none
  folder : Option JsVal := none
  favorite : Option JsVal := none
  isVirtual : Option JsVal := none
  deriving DecidableEq, Repr

/-- The call `Object.assign(rec, updates)`. -/
def assign (rec : Song) (updates : SongUpdates) : Song :=
  { id := updates.id.getD rec.id
    name := updates.name.getD rec.name
    artist := updates.artist.getD rec.artist
    blob := updates.blob.getD rec.blob
    url := updates.url.getD rec.url
    cover := updates.cover.getD rec.cover
    playCount := updates.playCount.getD rec.playCount
    lastPlayed := updates.lastPlayed.getD rec.lastPlayed
    lyrics := updates.lyrics.getD rec.lyrics
    folder := updates.folder.getD rec.folder
    favorite := updates.favorite.getD rec.favorite
    isVirtual := updates.isVirtual.getD rec.isVirtual }

/-- The call `store.get(k)` on an object store with key path `key`: the record stored under `k`,
or `none` (`undefined`) when there is none. -/
def storeGet {α : Type} (key : α → JsVal) (k : JsVal) (store : List α) :
    Except String (Option α) :=
  if k.validKey then .ok (store.find? (fun r => decide (key r = k)))
  else .error "DataError"

/-- The function `updateSongInDB(id, updates)`: the record the promise resolves with and the
database afterwards, or the error it rejects with.  A `put` that throws inside the success
callback leaves the promise unsettled, which is the error `Unsettled` here.  No failing call
writes to the database. -/
def updateSongInDB (db : DB) (id : JsVal) (updates : SongUpdates) : Except String (Song × DB) :=
  match storeGet Song.id id db.songs with
  | .error e => .error e
  | .ok none => .error "Not found"
  | .ok (some rec) =>
    let rec1 := assign rec updates
    match storePut Song.id rec1 db.songs with
    | .ok songs => .ok (rec1, { db with songs := songs })
    | .error _ => .error "Unsettled"

/-- A call of the song store: `addSongToDB(songData)` (with the value of `crypto.randomUUID()`),
`updateSongInDB(id, updates)` or `deleteSongFromDB(id)`. -/
inductive StoreOp where
  | addSong (songData : Song) (uuid : String)
  | updateSong (id : JsVal) (updates : SongUpdates)
  | deleteSong (id : JsVal)
  deriving DecidableEq, Repr

/-- The database after a call of the song store; a call that fails has written nothing. -/
def StoreOp.apply (db : DB) : StoreOp → DB
  | .addSong songData uuid =>
    match addSongToDB db songData uuid with
    | .ok (_, db1) => db1
    | .error _ => db
  | .updateSong id updates =>
    match updateSongInDB db id updates with
    | .ok (_, db1) => db1
    | .error _ => db
  | .deleteSong id =>
    match deleteSongFromDB db id with
    | .ok db1 => db1
    | .error _ => db

/-- The database after a sequence of calls of the song store. -/
def runStoreOps (db : DB) (ops : List StoreOp) : DB := ops.foldl StoreOp.apply db

/-! ## app.js: playback

Object URLs are numbered in the order `URL.createObjectURL` returns them. -/

/-- The value of `audio.src`. -/
inductive AudioSrc where
  | empty
  | handle (h : Nat)
  | url (s : String)
  deriving DecidableEq, Repr

/-- The playback state of `app.js`: the list `songs`, the number `index`, the variable
`currentBlobUrl` of `setAudioSrc`, the variable `currentBlobURL` of `playSongAtIndex`, the
source of the audio element, the number of object URLs created so far, the object URLs revoked
so far, and the names shown in the alerts `... cannot be played`. -/
structure Player where
  songs : List Song := []
  index : Nat := 0
  currentBlobUrl : Option Nat := none
  currentBlobURL : Option Nat := none
  audioSrc : AudioSrc := .empty
  created : Nat := 0
  revoked : List Nat := []
  alerts : List JsVal := []
  deriving DecidableEq, Repr

/-- The function `setAudioSrc(source)`. -/
def setAudioSrc (p : Player) (source : JsVal) : Player :=
  let p1 : Player :=
    match p.currentBlobUrl with
    | some h => { p with revoked := p.revoked ++ [h], currentBlobUrl := none }
    | none => p
  match source with
  | .blob _ =>
    { p1 with
      currentBlobUrl := some p1.created
      audioSrc := .handle p1.created
      created := p1.created + 1 }
  | .str s => { p1 with audioSrc := .url s }
  | _ => p1

/-- The value of `(v || 0) + 1`. -/
def bumpCount (v : JsVal) : JsVal :=
  match v.or (.num 0) with
  | .num n => .num (n + 1)
  | .bool _ => .num 2
  | .str s => .str (s ++ "1")
  | .blob _ => .str "[object Blob]1"
  | _ => .num 1

/-- The object `{ lastPlayed: Date.now(), playCount: (song.playCount || 0) + 1 }`. -/
def playUpdates (song : Song) (now : Int) : SongUpdates :=
  { lastPlayed := some (.num now)
    playCount := some (bumpCount song.playCount) }

/-- The test `b.size > 0 && b.type.startsWith("audio/")` on a `Blob`. -/
def audioBlob (b : Blob) : Bool := decide (b.size > 0) && startsWith b.type "audio/"

/-- The value of `sourceBlob` in `playSongAtIndex` when the final validation is reached: the
`Blob` of the entry, replaced by the `Blob` of its favorite snapshot when the entry has no valid
one and the snapshot has; `none` is `null`. -/
def resolveSourceBlob (db : DB) (song : Song) : Option Blob :=
  let sourceBlob : Option Blob :=
    match song.blob with
    | .blob b => some b
    | _ => none
  let validMainBlob : Bool :=
    match sourceBlob with
    | some b => audioBlob b
    | none => false
  if !validMainBlob then
    match (getFavorites db).find? (fun f => decide (f.songId = song.id)) with
    | some snap =>
      match snap.blob with
      | .blob sb => if audioBlob sb then some sb else sourceBlob
      | _ => sourceBlob
    | none => sourceBlob
  else sourceBlob

/-- The function `playSongAtIndex(i)`, up to the call `audio.play()`; `now` is the value of
`Date.now()`.  The result is the playback state and the database afterwards. -/
def playSongAtIndex (p : Player) (db : DB) (i : Nat) (now : Int) : Player × DB :=
  match p.songs.get? i with
  | none => (p, db)
  | some song =>
    let p1 : Player := { p with index := i }
    let stop : Player × DB := ({ p1 with alerts := p1.alerts ++ [song.name] }, db)
    match resolveSourceBlob db song with
    | none => stop
    | some b =>
      if b.size = 0 || !startsWith b.type "audio/" then stop
      else
        let revoked : List Nat :=
          match p1.currentBlobURL with
          | some h => p1.revoked ++ [h]
          | none => p1.revoked
        let p2 : Player :=
          { p1 with
            revoked := revoked
            currentBlobURL := some p1.created
            audioSrc := .handle p1.created
            created := p1.created + 1 }
        let db1 : DB :=
          if !song.isVirtual.truthy && song.id.truthy then
            match updateSongInDB db song.id (playUpdates song now) with
            | .ok (_, db1) => db1
            | .error _ => db
          else db
        (p2, db1)

/-- The function `playDirectFromRecord(rec)`, up to the call `audio.play()`; `none` is a falsy
`rec`.  The result is the playback state and the database afterwards. -/
def playDirectFromRecord (p : Player) (db : DB) (rec : Option Song) (now : Int) : Player × DB :=
  match rec with
  | none => (p, db)
  | some rec =>
    let p1 := setAudioSrc p (rec.blob.or rec.url)
    match updateSongInDB db rec.id (playUpdates rec now) with
    | .ok (_, db1) => (p1, db1)
    | .error _ => (p1, db)

/-- A playback start: `playSongAtIndex(i)` for an entry of the list, or
`playDirectFromRecord(rec)` for a record of the history; each with the value of `Date.now()`. -/
inductive PlaybackStart where
  | atIndex (i : Nat) (now : Int)
  | fromRecord (rec : Song) (now : Int)
  deriving DecidableEq, Repr

/-- The playback state and the database after a playback start. -/
def PlaybackStart.apply (s : Player × DB) : PlaybackStart → Player × DB
  | .atIndex i now => playSongAtIndex s.1 s.2 i now
  | .fromRecord rec now => playDirectFromRecord s.1 s.2 (some rec) now

/-- The playback state and the database after a sequence of playback starts. -/
def runStarts (s : Player × DB) (starts : List PlaybackStart) : Player × DB :=
  starts.foldl PlaybackStart.apply s

/-- The object URLs created so far that were not revoked. -/
def unreleased (p : Player) : List Nat :=
  (List.range p.created).filter (fun h => !p.revoked.contains h)

/-! ## The words of the specification -/

/-- A value that is a non-empty string. -/
def JsVal.nonEmptyString : JsVal → Bool
  | .str s => decide (s ≠ "")
  | _ => false

/-- A value that is a binary payload of positive size. -/
def JsVal.positivePayload : JsVal → Bool
  | .blob b => decide (0 < b.size)
  | _ => false

/-- The validity of a song record in the words of the specification: it has a non-empty name, and
a binary payload of positive size or a non-empty url. -/
def specValid (s : Song) : Bool :=
  s.name.nonEmptyString && (s.blob.positivePayload || s.url.nonEmptyString)

/-- A song record whose payload is a zero-length binary and which has no url (`null` or
`undefined`). -/
def zeroPayloadNoUrl (s : Song) : Bool :=
  (match s.blob with
    | .blob b => decide (b.size = 0)
    | _ => false) && (decide (s.url = .null) || decide (s.url = .undefined))

/-- A value that is a string, or is absent (`null`, `undefined`). -/
def JsVal.stringOrAbsent : JsVal → Bool
  | .str _ => true
  | .null => true
  | .undefined => true
  | _ => false

/-- Whether the value is a string that contains `q`, both compared case-insensitively, that is,
after `toLowerCase`. -/
def containsIgnoringCase (toLowerCase : String → String) (v : JsVal) (q : String) : Bool :=
  match v with
  | .str s => includes (toLowerCase s) (toLowerCase q)
  | _ => false

/-- The weight of an entry in the words of the specification: `1 / max(playCount, 1)`, an absent
play count counting as 0. -/
def specWeight {K : Type} [LinearOrderedField K] (s : Song) : K :=
  match s.playCount with
  | .num n => 1 / ((max n 1 : Int) : K)
  | _ => 1

/-- The sum of the weights of the first `i` entries of the list. -/
def runningWeight {K : Type} [LinearOrderedField K] (songs : List Song) (i : Nat) : K :=
  ((songs.take i).map specWeight).sum

/-- The sequence of draws that starts with `u` and goes on as `rest`. -/
def drawsFrom {K : Type} (u : K) (rest : Nat → K) : Nat → K
  | 0 => u
  | i + 1 => rest i

/-! ## Example data -/

/-- A stored song with a playable payload. -/
def songA : Song :=
  { id := .str "a"
    name := .str "Alpha"
    artist := .str "Local"
    blob := .blob ⟨5, "audio/mpeg"⟩ }

/-- A favorite snapshot of `songA`, taken at time 7. -/
def favA : Favorite := favoriteClone songA 7

/-- A favorite snapshot whose song is not in the store. -/
def favZ : Favorite :=
  { songId := .str "z"
    name := .str "Zulu"
    artist := .str "Local"
    blob := .blob ⟨9, "audio/mpeg"⟩
    url := .null }

/-- A stored record with a playable payload whose name is the empty string. -/
def songNoName : Song :=
  { id := .str "n"
    name := .str ""
    artist := .str "Local"
    blob := .blob ⟨5, "audio/mpeg"⟩
    url := .null }

/-- A stored record with a zero-length payload and no url, under the key `""`. -/
def songNoKey : Song :=
  { id := .str ""
    name := .str "Broken"
    artist := .str "Local"
    blob := .blob ⟨0, "audio/mpeg"⟩
    url := .null }

/-- A stored record with a zero-length payload and no url, under the key `"k"`. -/
def songBroken : Song :=
  { id := .str "k"
    name := .str "Broken"
    artist := .str "Local"
    blob := .blob ⟨0, "audio/mpeg"⟩
    url := .null }

/-- A list entry that was never played. -/
def songFresh : Song :=
  { id := .str "f"
    name := .str "Fresh"
    artist := .str "Local"
    blob := .blob ⟨5, "audio/mpeg"⟩
    url := .null
    playCount := .num 0 }

/-- A list entry that was played nine times. -/
def songPlayed : Song :=
  { id := .str "p"
    name := .str "Played"
    artist := .str "Local"
    blob := .blob ⟨5, "audio/mpeg"⟩
    url := .null
    playCount := .num 9 }

/-- The record `storeSong` writes for the file `Alpha.mp3` under the identifier `a`. -/
def trackAlpha : Song :=
  { id := .str "a"
    name := .str "Alpha"
    artist := .str "Local"
    blob := .blob ⟨5, "audio/mpeg"⟩
    url := .null
    cover := .null
    playCount := .num 0
    lastPlayed := .null
    lyrics := .null
    folder := .null }

/-- The record `storeSong` writes for the file `Beta.mp3` under the identifier `b`. -/
def trackBeta : Song :=
  { id := .str "b"
    name := .str "Beta"
    artist := .str "Local"
    blob := .blob ⟨5, "audio/mpeg"⟩
    url := .null
    cover := .null
    playCount := .num 0
    lastPlayed := .null
    lyrics := .null
    folder := .null }

/-- A song record whose url is the empty string. -/
def songEmptyUrl : Song := { trackAlpha with url := .str "" }

/-- The record `trackBeta` after it was played once. -/
def trackBetaPlayed : Song := { trackBeta with playCount := .num 1, lastPlayed := .num 3 }

/-- The property of one variable holding object URLs: every object URL created so far was
revoked, except the most recent one when the variable holds it. -/
def slotReleases (slot : Option Nat) (created : Nat) (revoked : List Nat) : Prop :=
  ∀ h, h < created → h ∈ revoked ∨ (slot = some h ∧ h + 1 = created)

/-- Every object URL created so far, except possibly the most recent one, was revoked. -/
def Player.allButLastReleased (p : Player) : Prop :=
  ∀ h, h + 1 < p.created → h ∈ p.revoked

/-- A list entry with a url and no binary payload. -/
def songUrlOnly : Song :=
  { id := .str "r"
    name := .str "Remote"
    artist := .str "Local"
    blob := .null
    url := .str "https://example.org/remote.mp3" }

/-- Three entries with the play counts 9, 2 and 9. -/
def driftSongs : List Song := [counted "x" 9, counted "y" 2, counted "z" 9]

/-- The double `1 - 2 ^ (-52)`. -/
def driftDraw : Double := ⟨2 ^ 52 - 1, -52⟩

/-! ## The reconciliation pass -/

theorem validateLoop_ok (todo : List Song) :
    ∀ (store validSongs : List Song),
      (∀ s ∈ todo, s.id.validKey = true) →
      validateLoop todo store validSongs =
        .ok (store.filter (fun r => !prunedBy todo r), validSongs ++ todo.filter isValid) := by
  induction todo with
  | nil => intro store validSongs _; simp [validateLoop, prunedBy]
  | cons s rest ih =>
    intro store validSongs h
    have hrest : ∀ t ∈ rest, t.id.validKey = true :=
      fun t ht => h t (List.mem_cons_of_mem _ ht)
    unfold validateLoop
    by_cases hv : isValid s = true
    · simp only [hv, Bool.not_true, Bool.false_eq_true, if_false]
      rw [ih _ _ hrest]
      simp [prunedBy, hv, List.filter_cons]
    · have hv' : isValid s = false := by simpa using hv
      simp only [hv', Bool.not_false, if_true]
      by_cases ht : s.id.truthy = true
      · have hk := h s (List.mem_cons_self _ _)
        simp only [ht, if_true, storeDelete, hk]
        rw [ih _ _ hrest]
        simp [prunedBy, hv', ht, List.filter_cons, List.filter_filter, Bool.and_comm]
      · have ht' : s.id.truthy = false := by simpa using ht
        simp only [ht', Bool.false_eq_true, if_false]
        rw [ih _ _ hrest]
        simp [prunedBy, hv', ht', List.filter_cons]

theorem loadPlaylist_unfiltered (toLowerCase : String → String) (db : DB)
    (hkeys : ∀ s ∈ db.songs, s.id.validKey = true) :
    loadPlaylist toLowerCase db "" =
      .ok ({ db with songs := db.songs.filter (fun r => !prunedBy db.songs r) },
        db.songs.filter isValid ++ missingFavs (db.songs.filter isValid) db.favorites) := by
  simp [loadPlaylist, getAllSongsFromDB, getFavorites, validateLoop_ok db.songs _ _ hkeys]

theorem filter_orderedInsert_singleton {α : Type} (r : α → α → Prop) [DecidableRel r]
    (p : α → Bool) (a : α) (l : List α) (ha : p a = true) (hl : ∀ x ∈ l, p x = false) :
    (List.orderedInsert r a l).filter p = [a] := by
  have hperm : ((List.orderedInsert r a l).filter p).Perm ((a :: l).filter p) :=
    (List.perm_orderedInsert r a l).filter p
  have hnil : l.filter p = [] := by
    rw [List.filter_eq_nil_iff]
    intro x hx
    simp [hl x hx]
  rw [List.filter_cons, if_pos ha, hnil] at hperm
  exact List.perm_singleton.mp hperm

theorem missingFavs_filter_id (validSongs : List Song) (favs : List Favorite) (k : JsVal) :
    (missingFavs validSongs favs).filter (fun e => decide (e.id = k)) =
      (favs.filter (fun f => decide (f.songId = k) &&
        !validSongs.any (fun s => decide (s.id = f.songId)))).map virtualEntry := by
  unfold missingFavs
  rw [List.filter_map, List.filter_filter]
  rfl

theorem virtual_blob_of_clone (v : JsVal) (h : v.isBlob = true ∨ v.truthy = false) :
    (if (v.or .null).isBlob then v.or .null else JsVal.null) = v.or .null := by
  cases v <;> simp_all [JsVal.or, JsVal.truthy, JsVal.isBlob]

theorem virtual_url_of_clone (v : JsVal) (h : v.isString = true ∨ v.truthy = false) :
    (if (v.or .null).isString && (v.or .null).truthy then v.or .null else JsVal.null) =
      v.or .null := by
  cases v with
  | str u => by_cases hu : u = "" <;> simp [JsVal.or, JsVal.truthy, JsVal.isString, hu]
  | _ => simp_all [JsVal.or, JsVal.truthy, JsVal.isString]

/-- C1: for every store state and every song record that has an identifier (a truthy `id`
that is a valid key), whose `blob` is a Blob or falsy and whose `url` is a string or falsy:
`addFavorite(song)`, then `deleteSongFromDB(song.id)`, then `loadPlaylist()` all succeed, the
favorites store holds the snapshot of `song`, and the new list has exactly one entry with that
`id`; the entry is marked virtual and its name, artist, cover, blob and url are the snapshot's. -/
theorem favorite_survives_delete (toLowerCase : String → String) (db : DB) (song : Song)
    (now : Int)
    (hkeys : ∀ s ∈ db.songs, s.id.validKey = true)
    (hid : song.id.truthy = true) (hkey : song.id.validKey = true)
    (hblob : song.blob.isBlob = true ∨ song.blob.truthy = false)
    (hurl : song.url.isString = true ∨ song.url.truthy = false) :
    ∃ db1 db2 db3 entries e,
      addFavorite db (some song) now = .ok db1 ∧
      deleteSongFromDB db1 song.id = .ok db2 ∧
      loadPlaylist toLowerCase db2 "" = .ok (db3, entries) ∧
      db3.favorites.filter (fun f => decide (f.songId = song.id)) = [favoriteClone song now] ∧
      entries.filter (fun x => decide (x.id = song.id)) = [e] ∧
      e.isVirtual = .bool true ∧
      e.name = (favoriteClone song now).name ∧
      e.artist = (favoriteClone song now).artist ∧
      e.cover = (favoriteClone song now).cover ∧
      e.blob = (favoriteClone song now).blob ∧
      e.url = (favoriteClone song now).url := by
  set snap := favoriteClone song now with hsnap
  have hsnapId : snap.songId = song.id := rfl
  set favs1 := List.orderedInsert
    (fun a b : Favorite => JsVal.keyLe a.songId b.songId = true) snap
    (db.favorites.filter (fun r => decide (r.songId ≠ snap.songId))) with hfavs1
  set songs2 := db.songs.filter (fun r => decide (r.id ≠ song.id)) with hsongs2
  have hadd : addFavorite db (some song) now = .ok { db with favorites := favs1 } := by
    simp [addFavorite, hid, storePut, ← hsnap, hsnapId, hkey, hfavs1]
  have hdel : deleteSongFromDB { db with favorites := favs1 } song.id =
      .ok { songs := songs2, favorites := favs1 } := by
    simp [deleteSongFromDB, storeDelete, hkey, hsongs2]
  have hkeys2 : ∀ s ∈ songs2, s.id.validKey = true := fun s hs =>
    hkeys s (List.mem_of_mem_filter hs)
  have hload := loadPlaylist_unfiltered toLowerCase
    ({ songs := songs2, favorites := favs1 } : DB) hkeys2
  have hfav : favs1.filter (fun f => decide (f.songId = song.id)) = [snap] := by
    apply filter_orderedInsert_singleton
    · simp [hsnapId]
    · intro x hx
      have := (List.mem_filter.mp hx).2
      simpa [hsnapId] using this
  have hnone : ∀ s ∈ songs2.filter isValid, s.id ≠ song.id := by
    intro s hs
    have := (List.mem_filter.mp (List.mem_of_mem_filter hs)).2
    simpa using this
  refine ⟨_, _, _, _, virtualEntry snap, hadd, hdel, hload, hfav, ?_, rfl, rfl, rfl, rfl,
    virtual_blob_of_clone song.blob hblob, virtual_url_of_clone song.url hurl⟩
  rw [List.filter_append, missingFavs_filter_id]
  have h1 : (songs2.filter isValid).filter (fun x => decide (x.id = song.id)) = [] := by
    rw [List.filter_eq_nil_iff]
    intro x hx
    simpa using hnone x hx
  have h2 : favs1.filter (fun f => decide (f.songId = song.id) &&
      !(songs2.filter isValid).any (fun s => decide (s.id = f.songId))) =
      favs1.filter (fun f => decide (f.songId = song.id)) := by
    apply List.filter_congr
    intro f _
    by_cases hf : f.songId = song.id
    · have hany : (songs2.filter isValid).any (fun s => decide (s.id = f.songId)) = false := by
        rw [List.any_eq_false]
        intro s hs
        simpa [hf] using hnone s hs
      rw [hany]
      simp
    · simp [hf]
  simp only [h1, List.nil_append]
  rw [h2, hfav]
  rfl

theorem favorite_survives_delete_witness :
    ∃ db1 db2 db3 entries e,
      addFavorite { songs := [songA] } (some songA) 7 = .ok db1 ∧
      deleteSongFromDB db1 songA.id = .ok db2 ∧
      loadPlaylist asciiLower db2 "" = .ok (db3, entries) ∧
      db3.favorites.filter (fun f => decide (f.songId = songA.id)) = [favoriteClone songA 7] ∧
      entries.filter (fun x => decide (x.id = songA.id)) = [e] ∧
      e.isVirtual = .bool true ∧
      e.name = (favoriteClone songA 7).name ∧
      e.artist = (favoriteClone songA 7).artist ∧
      e.cover = (favoriteClone songA 7).cover ∧
      e.blob = (favoriteClone songA 7).blob ∧
      e.url = (favoriteClone songA 7).url :=
  favorite_survives_delete asciiLower { songs := [songA] } songA 7 (by decide) (by decide)
    (by decide) (by decide) (by decide)
theorem mem_missingFavs {validSongs : List Song} {favs : List Favorite} {e : Song} :
    e ∈ missingFavs validSongs favs ↔
      ∃ f ∈ favs, (∀ s ∈ validSongs, s.id ≠ f.songId) ∧ e = virtualEntry f := by
  unfold missingFavs
  simp only [List.mem_map, List.mem_filter]
  constructor
  · rintro ⟨f, ⟨hf, hno⟩, rfl⟩
    refine ⟨f, hf, ?_, rfl⟩
    intro s hs heq
    simp only [Bool.not_eq_true', List.any_eq_false, decide_eq_true_eq] at hno
    exact hno s hs heq
  · rintro ⟨f, hf, hno, rfl⟩
    refine ⟨f, ⟨hf, ?_⟩, rfl⟩
    simp only [Bool.not_eq_true', List.any_eq_false, decide_eq_true_eq]
    exact hno

theorem filter_key_eq_singleton {α : Type} (key : α → JsVal) (l : List α)
    (hnodup : (l.map key).Nodup) (a : α) (ha : a ∈ l) :
    l.filter (fun x => decide (key x = key a)) = [a] := by
  induction l with
  | nil => cases ha
  | cons x xs ih =>
    rw [List.map_cons, List.nodup_cons] at hnodup
    rcases List.mem_cons.mp ha with rfl | hmem
    · have hnil : xs.filter (fun y => decide (key y = key a)) = [] := by
        rw [List.filter_eq_nil_iff]
        intro y hy hkey
        exact hnodup.1 (by
          rw [← of_decide_eq_true hkey]
          exact List.mem_map_of_mem key hy)
      simp [List.filter_cons, hnil]
    · have hne : key x ≠ key a := by
        intro hkey
        exact hnodup.1 (by rw [hkey]; exact List.mem_map_of_mem key hmem)
      simp [List.filter_cons, hne, ih hnodup.2 hmem]

/-- C4: for every pair of store contents, the unfiltered list `loadPlaylist` builds is the
valid song records in store order followed by the virtual entries; every virtual entry is
marked `isVirtual`; a snapshot whose `songId` is the `id` of no valid record has exactly one
virtual entry, the one built from it, carrying its `songId` as `id`; a snapshot whose `songId`
is the `id` of a valid record has none. -/
theorem reconciled_list_shape (toLowerCase : String → String) (db : DB)
    (hkeys : ∀ s ∈ db.songs, s.id.validKey = true)
    (hfavs : (db.favorites.map Favorite.songId).Nodup) :
    ∃ db1 virtuals,
      loadPlaylist toLowerCase db "" = .ok (db1, db.songs.filter isValid ++ virtuals) ∧
      (∀ e ∈ virtuals, e.isVirtual = .bool true ∧ ∃ f ∈ db.favorites, e = virtualEntry f) ∧
      (∀ f ∈ db.favorites, (∀ s ∈ db.songs, isValid s = true → s.id ≠ f.songId) →
        virtuals.filter (fun e => decide (e.id = f.songId)) = [virtualEntry f] ∧
        (virtualEntry f).id = f.songId ∧ (virtualEntry f).isVirtual = .bool true) ∧
      (∀ f ∈ db.favorites, (∃ s ∈ db.songs, isValid s = true ∧ s.id = f.songId) →
        ∀ e ∈ virtuals, e.id ≠ f.songId) := by
  refine ⟨_, _, loadPlaylist_unfiltered toLowerCase db hkeys, ?_, ?_, ?_⟩
  · intro e he
    obtain ⟨f, hf, _, rfl⟩ := mem_missingFavs.mp he
    exact ⟨rfl, f, hf, rfl⟩
  · intro f hf hno
    refine ⟨?_, rfl, rfl⟩
    rw [missingFavs_filter_id]
    have h2 : db.favorites.filter (fun g => decide (g.songId = f.songId) &&
        !(db.songs.filter isValid).any (fun s => decide (s.id = g.songId))) =
        db.favorites.filter (fun g => decide (g.songId = f.songId)) := by
      apply List.filter_congr
      intro g _
      by_cases hg : g.songId = f.songId
      · have hany : (db.songs.filter isValid).any (fun s => decide (s.id = g.songId)) = false := by
          rw [List.any_eq_false]
          intro s hs
          have hs' := List.mem_filter.mp hs
          simpa [hg] using hno s hs'.1 hs'.2
        rw [hany]
        simp
      · simp [hg]
    rw [h2, filter_key_eq_singleton Favorite.songId db.favorites hfavs f hf]
    rfl
  · rintro f _ ⟨s, hs, hv, hid⟩ e he
    obtain ⟨g, _, hno, rfl⟩ := mem_missingFavs.mp he
    intro heq
    exact hno s (List.mem_filter.mpr ⟨hs, hv⟩) (by rw [hid]; exact heq.symm)

theorem reconciled_list_shape_witness :
    ∃ db1 virtuals,
      loadPlaylist asciiLower { songs := [songA], favorites := [favA, favZ] } "" =
        .ok (db1, [songA].filter isValid ++ virtuals) ∧
      (∀ e ∈ virtuals, e.isVirtual = .bool true ∧ ∃ f ∈ [favA, favZ], e = virtualEntry f) ∧
      (∀ f ∈ [favA, favZ], (∀ s ∈ [songA], isValid s = true → s.id ≠ f.songId) →
        virtuals.filter (fun e => decide (e.id = f.songId)) = [virtualEntry f] ∧
        (virtualEntry f).id = f.songId ∧ (virtualEntry f).isVirtual = .bool true) ∧
      (∀ f ∈ [favA, favZ], (∃ s ∈ [songA], isValid s = true ∧ s.id = f.songId) →
        ∀ e ∈ virtuals, e.id ≠ f.songId) :=
  reconciled_list_shape asciiLower { songs := [songA], favorites := [favA, favZ] }
    (by decide) (by decide)
theorem isValid_iff (s : Song) :
    isValid s = true ↔
      (∃ n, s.name = .str n) ∧ ((∃ b, s.blob = .blob b ∧ 0 < b.size) ∨ ∃ u, s.url = .str u) := by
  unfold isValid
  cases hn : s.name <;> cases hb : s.blob <;> cases hu : s.url <;>
    simp [JsVal.isString]

theorem isValid_eq_specValid (s : Song) (hname : s.name ≠ .str "") (hurl : s.url ≠ .str "") :
    isValid s = specValid s := by
  unfold isValid specValid
  cases hn : s.name <;> cases hb : s.blob <;> cases hu : s.url <;>
    simp_all [JsVal.isString, JsVal.nonEmptyString, JsVal.positivePayload]

/-- C2, as the code has it: for every content of the song store, the list `loadPlaylist`
builds without a filter is the stored records passing the validity test, in store order,
followed by entries marked virtual; a record passes the test if and only if its name is a
string (the empty string included) and it has a binary payload of positive size or its url is a
string (the empty string included).  On a record whose name and url are not the empty string
this is the specification's test: a non-empty name and a payload of positive size or a
non-empty url. -/
theorem primary_entries_valid (toLowerCase : String → String) (db : DB)
    (hkeys : ∀ s ∈ db.songs, s.id.validKey = true) :
    (∃ db1 virtuals,
      loadPlaylist toLowerCase db "" = .ok (db1, db.songs.filter isValid ++ virtuals) ∧
      ∀ e ∈ virtuals, e.isVirtual = .bool true) ∧
    (∀ s : Song, isValid s = true ↔
      (∃ n, s.name = .str n) ∧
        ((∃ b, s.blob = .blob b ∧ 0 < b.size) ∨ ∃ u, s.url = .str u)) ∧
    (∀ s : Song, s.name ≠ .str "" → s.url ≠ .str "" → isValid s = specValid s) := by
  refine ⟨⟨_, _, loadPlaylist_unfiltered toLowerCase db hkeys, ?_⟩, isValid_iff,
    isValid_eq_specValid⟩
  intro e he
  obtain ⟨f, _, _, rfl⟩ := mem_missingFavs.mp he
  rfl

theorem primary_entries_valid_witness :
    (∃ db1 virtuals,
      loadPlaylist asciiLower { songs := [songA, songNoName], favorites := [favZ] } "" =
        .ok (db1, [songA, songNoName].filter isValid ++ virtuals) ∧
      ∀ e ∈ virtuals, e.isVirtual = .bool true) ∧
    (∀ s : Song, isValid s = true ↔
      (∃ n, s.name = .str n) ∧
        ((∃ b, s.blob = .blob b ∧ 0 < b.size) ∨ ∃ u, s.url = .str u)) ∧
    (∀ s : Song, s.name ≠ .str "" → s.url ≠ .str "" → isValid s = specValid s) :=
  primary_entries_valid asciiLower { songs := [songA, songNoName], favorites := [favZ] }
    (by decide)

/-- C2 as stated fails: the store holding one record with the empty string as name and a
payload of five bytes is reconciled to the list holding that record, which the specification's
test (a non-empty name) does not pass. -/
theorem primary_entries_valid_counterexample :
    loadPlaylist asciiLower { songs := [songNoName] } "" =
      .ok ({ songs := [songNoName] }, [songNoName]) ∧
    specValid songNoName = false :=
  ⟨rfl, rfl⟩
theorem zeroPayloadNoUrl_not_valid (s : Song) (h : zeroPayloadNoUrl s = true) :
    isValid s = false := by
  unfold zeroPayloadNoUrl at h
  unfold isValid
  cases hb : s.blob <;> cases hu : s.url <;> simp_all [JsVal.isString]

theorem prunedBy_valid (todo : List Song) (hnodup : (todo.map Song.id).Nodup) (s : Song)
    (hs : s ∈ todo) (hv : isValid s = true) : prunedBy todo s = false := by
  unfold prunedBy
  rw [List.any_eq_false]
  intro t ht
  by_cases hid : s.id = t.id
  · have : s = t := List.inj_on_of_nodup_map hnodup hs ht hid
    subst this
    simp [hv]
  · simp [hid]

/-- C3, as the code has it: for every content of the song store (keys distinct), the list
`loadPlaylist` builds is stored records, none of which has a zero-length payload and no url,
followed by entries marked virtual; after the pass the store holds only records it held before,
every record with a zero-length payload and no url whose `id` is truthy is gone from it, every
valid record is still in it, and the favorites store is the same. -/
theorem invalid_records_pruned (toLowerCase : String → String) (db : DB)
    (hkeys : ∀ s ∈ db.songs, s.id.validKey = true)
    (hnodup : (db.songs.map Song.id).Nodup) :
    ∃ db1 primary virtuals,
      loadPlaylist toLowerCase db "" = .ok (db1, primary ++ virtuals) ∧
      (∀ e ∈ primary, e ∈ db.songs ∧ zeroPayloadNoUrl e = false) ∧
      (∀ e ∈ virtuals, e.isVirtual = .bool true) ∧
      db1.songs.Sublist db.songs ∧
      (∀ s ∈ db.songs, zeroPayloadNoUrl s = true → s.id.truthy = true →
        ∀ r ∈ db1.songs, r.id ≠ s.id) ∧
      (∀ s ∈ db.songs, isValid s = true → s ∈ db1.songs) ∧
      db1.favorites = db.favorites := by
  refine ⟨_, _, _, loadPlaylist_unfiltered toLowerCase db hkeys, ?_, ?_, ?_, ?_, ?_, rfl⟩
  · intro e he
    have he' := List.mem_filter.mp he
    refine ⟨he'.1, ?_⟩
    by_contra hz
    have hz' : zeroPayloadNoUrl e = true := by simpa using hz
    rw [zeroPayloadNoUrl_not_valid e hz'] at he'
    exact Bool.false_ne_true he'.2
  · intro e he
    obtain ⟨f, _, _, rfl⟩ := mem_missingFavs.mp he
    rfl
  · exact List.filter_sublist _
  · intro s hs hz ht r hr hid
    have hr' := List.mem_filter.mp hr
    have hpr : prunedBy db.songs r = true := by
      unfold prunedBy
      rw [List.any_eq_true]
      exact ⟨s, hs, by simp [zeroPayloadNoUrl_not_valid s hz, ht, hid]⟩
    simp [hpr] at hr'
  · intro s hs hv
    exact List.mem_filter.mpr ⟨hs, by simp [prunedBy_valid db.songs hnodup s hs hv]⟩

theorem invalid_records_pruned_witness :
    ∃ db1 primary virtuals,
      loadPlaylist asciiLower { songs := [songA, songBroken], favorites := [favZ] } "" =
        .ok (db1, primary ++ virtuals) ∧
      (∀ e ∈ primary, e ∈ [songA, songBroken] ∧ zeroPayloadNoUrl e = false) ∧
      (∀ e ∈ virtuals, e.isVirtual = .bool true) ∧
      db1.songs.Sublist [songA, songBroken] ∧
      (∀ s ∈ [songA, songBroken], zeroPayloadNoUrl s = true → s.id.truthy = true →
        ∀ r ∈ db1.songs, r.id ≠ s.id) ∧
      (∀ s ∈ [songA, songBroken], isValid s = true → s ∈ db1.songs) ∧
      db1.favorites = [favZ] :=
  invalid_records_pruned asciiLower { songs := [songA, songBroken], favorites := [favZ] }
    (by decide) (by decide)

/-- C3 as stated fails: the store holding one record with a zero-length payload and no url
under the key `""` is reconciled to the empty list, and the record is still stored after the
pass. -/
theorem invalid_records_pruned_counterexample :
    zeroPayloadNoUrl songNoKey = true ∧
    loadPlaylist asciiLower { songs := [songNoKey] } "" = .ok ({ songs := [songNoKey] }, []) :=
  ⟨rfl, rfl⟩
theorem filterE_ok {α : Type} (p : α → Except String Bool) (b : α → Bool) (l : List α)
    (h : ∀ x ∈ l, p x = .ok (b x)) : filterE p l = .ok (l.filter b) := by
  induction l with
  | nil => rfl
  | cons x xs ih =>
    have hx := h x (List.mem_cons_self _ _)
    have hxs := ih (fun y hy => h y (List.mem_cons_of_mem _ hy))
    unfold filterE
    rw [hx, hxs]
    cases hb : b x <;> simp [List.filter_cons, hb]

theorem matchesFilter_typed (toLowerCase : String → String) (q : String) (e : Song)
    (hname : e.name.stringOrAbsent = true) (hartist : e.artist.stringOrAbsent = true) :
    matchesFilter toLowerCase (toLowerCase q) e =
      .ok (containsIgnoringCase toLowerCase e.name q ||
        containsIgnoringCase toLowerCase e.artist q) := by
  unfold matchesFilter
  cases hn : e.name with
  | str n =>
    cases ha : e.artist <;> simp_all [JsVal.stringOrAbsent, lowerIncludes, containsIgnoringCase]
    all_goals
      generalize includes (toLowerCase n) (toLowerCase q) = b
      cases b <;> rfl
  | undefined =>
    cases ha : e.artist <;> simp_all [JsVal.stringOrAbsent, lowerIncludes, containsIgnoringCase]
  | null =>
    cases ha : e.artist <;> simp_all [JsVal.stringOrAbsent, lowerIncludes, containsIgnoringCase]
  | _ => simp_all [JsVal.stringOrAbsent]

/-- C5: for every store content whose names and artists are strings or absent and every
non-empty filter string `q`, `loadPlaylist(q)` succeeds and its list is the unfiltered
reconciled list restricted, in the same order, to the entries whose name or artist contains
`q` when both are lowered; `loadPlaylist("")` excludes no entry of the reconciled list. -/
theorem filter_matches_name_or_artist (toLowerCase : String → String) (db : DB) (q : String)
    (hq : q ≠ "")
    (hkeys : ∀ s ∈ db.songs, s.id.validKey = true)
    (hsongs : ∀ s ∈ db.songs, s.artist.stringOrAbsent = true)
    (hfavs : ∀ f ∈ db.favorites, f.name.stringOrAbsent = true ∧ f.artist.stringOrAbsent = true) :
    ∃ db1 reconciled filtered,
      reconciled = db.songs.filter isValid ++ missingFavs (db.songs.filter isValid) db.favorites ∧
      loadPlaylist toLowerCase db "" = .ok (db1, reconciled) ∧
      loadPlaylist toLowerCase db q = .ok (db1, filtered) ∧
      filtered = reconciled.filter (fun e =>
        containsIgnoringCase toLowerCase e.name q ||
          containsIgnoringCase toLowerCase e.artist q) ∧
      filtered.Sublist reconciled := by
  refine ⟨_, _, _, rfl, loadPlaylist_unfiltered toLowerCase db hkeys, ?_, rfl,
    List.filter_sublist _⟩
  have hall : ∀ e ∈ db.songs.filter isValid ++
      missingFavs (db.songs.filter isValid) db.favorites,
      matchesFilter toLowerCase (toLowerCase q) e =
        .ok (containsIgnoringCase toLowerCase e.name q ||
          containsIgnoringCase toLowerCase e.artist q) := by
    intro e he
    rcases List.mem_append.mp he with h | h
    · have he' := List.mem_filter.mp h
      obtain ⟨⟨n, hn⟩, _⟩ := (isValid_iff e).mp he'.2
      exact matchesFilter_typed toLowerCase q e (by rw [hn]; rfl) (hsongs e he'.1)
    · obtain ⟨f, hf, _, rfl⟩ := mem_missingFavs.mp h
      exact matchesFilter_typed toLowerCase q _ (hfavs f hf).1 (hfavs f hf).2
  simp [loadPlaylist, getAllSongsFromDB, getFavorites, validateLoop_ok db.songs _ _ hkeys, hq,
    filterE_ok _ _ _ hall]

theorem filter_matches_name_or_artist_witness :
    ∃ db1 reconciled filtered,
      reconciled = [songA].filter isValid ++ missingFavs ([songA].filter isValid) [favZ] ∧
      loadPlaylist asciiLower { songs := [songA], favorites := [favZ] } "" =
        .ok (db1, reconciled) ∧
      loadPlaylist asciiLower { songs := [songA], favorites := [favZ] } "ZU" =
        .ok (db1, filtered) ∧
      filtered = reconciled.filter (fun e =>
        containsIgnoringCase asciiLower e.name "ZU" ||
          containsIgnoringCase asciiLower e.artist "ZU") ∧
      filtered.Sublist reconciled :=
  filter_matches_name_or_artist asciiLower { songs := [songA], favorites := [favZ] } "ZU"
    (by decide) (by decide) (by decide) (by decide)

/-! ## Smart shuffle -/

section SmartLemmas

variable {K : Type} [LinearOrderedField K]

theorem weight_of_count (s : Song) (n : Nat) (h : s.playCount = .num n) :
    weight (K := K) s = some (specWeight s) ∧ (0 : K) < specWeight s := by
  unfold weight specWeight
  rw [h]
  rcases Nat.eq_zero_or_pos n with h0 | hpos
  · subst h0
    simp [JsVal.or, JsVal.truthy]
  · have hn : (n : Int) ≠ 0 := by exact_mod_cast hpos.ne.symm
    have hmax : max (n : Int) 1 = n := max_eq_left (by exact_mod_cast hpos)
    have hK : (0 : K) < (n : K) := by exact_mod_cast hpos
    simp [JsVal.or, JsVal.truthy, hn, hmax, hK]

theorem totalWeight_aux (songs : List Song) :
    ∀ a : K, (∀ s ∈ songs, weight (K := K) s = some (specWeight s)) →
      songs.foldl (fun acc s => jsAdd acc (weight s)) (some a) =
        some (a + (songs.map specWeight).sum) := by
  induction songs with
  | nil => intro a _; simp
  | cons s rest ih =>
    intro a h
    have hadd : jsAdd (some a) (some (specWeight (K := K) s)) = some (a + specWeight s) := rfl
    rw [List.foldl_cons, h s (List.mem_cons_self _ _), hadd,
      ih _ (fun t ht => h t (List.mem_cons_of_mem _ ht))]
    simp [add_assoc]

theorem totalWeight_eq (songs : List Song)
    (h : ∀ s ∈ songs, weight (K := K) s = some (specWeight s)) :
    totalWeight (K := K) songs = some ((songs.map specWeight).sum) := by
  unfold totalWeight
  rw [totalWeight_aux songs 0 h]
  simp

theorem runningWeight_cons_succ (s : Song) (rest : List Song) (i : Nat) :
    runningWeight (K := K) (s :: rest) (i + 1) = specWeight s + runningWeight rest i := by
  simp [runningWeight]

theorem weightedLoop_first (songs : List Song) :
    ∀ r : K, (∀ s ∈ songs, weight (K := K) s = some (specWeight s)) →
      songs ≠ [] → r ≤ (songs.map specWeight).sum →
      ∃ k e, songs[k]? = some e ∧ weightedLoop songs (some r) = some e ∧
        r ≤ runningWeight songs (k + 1) ∧ ∀ j < k, runningWeight songs (j + 1) < r := by
  induction songs with
  | nil => intro r _ hne _; exact absurd rfl hne
  | cons s rest ih =>
    intro r h _ hle
    have hs := h s (List.mem_cons_self _ _)
    by_cases hr : r - specWeight s ≤ 0
    · refine ⟨0, s, by simp, ?_, ?_, ?_⟩
      · simp [weightedLoop, hs, jsSub, jsLeZero, hr]
      · simp [runningWeight]
        linarith
      · intro j hj
        exact absurd hj (Nat.not_lt_zero j)
    · have hr' : 0 < r - specWeight s := not_le.mp hr
      have hle' : r - specWeight s ≤ (rest.map specWeight).sum := by
        simp only [List.map_cons, List.sum_cons] at hle
        linarith
      have hrest : rest ≠ [] := by
        intro hnil
        rw [hnil] at hle'
        simp only [List.map_nil, List.sum_nil] at hle'
        exact absurd hr' (not_lt.mpr hle')
      obtain ⟨k, e, hk, hloop, hreach, hfirst⟩ :=
        ih (r - specWeight s) (fun t ht => h t (List.mem_cons_of_mem _ ht)) hrest hle'
      refine ⟨k + 1, e, by simpa using hk, ?_, ?_, ?_⟩
      · simp [weightedLoop, hs, jsSub, jsLeZero, hr, hloop]
      · rw [runningWeight_cons_succ]
        linarith
      · intro j hj
        rw [runningWeight_cons_succ]
        cases j with
        | zero =>
          simp [runningWeight]
          linarith
        | succ i =>
          have := hfirst i (Nat.lt_of_succ_lt_succ hj)
          linarith

theorem specWeight_sum_nonneg (songs : List Song)
    (h : ∀ s ∈ songs, (0 : K) < specWeight s) : (0 : K) ≤ (songs.map specWeight).sum := by
  apply List.sum_nonneg
  intro x hx
  obtain ⟨s, hs, rfl⟩ := List.mem_map.mp hx
  exact (h s hs).le

end SmartLemmas

/-- In exact arithmetic, with the weights and the draws taken in an ordered field and nothing
rounded: on a non-empty list whose play counts are non-negative integers, every entry has the
weight `1 / max(playCount, 1)`, and for every draw `u` below 1 the weighted choice is the first
entry, in list order, at which the running sum of the weights reaches `u * total`.  The code
computes in double precision, which `Ieee.weightedPick` follows. -/
theorem exact_pick_first_reaching {K : Type} [LinearOrderedField K] [FloorRing K]
    (songs : List Song) (u v : K)
    (hne : songs ≠ [])
    (hpc : ∀ s ∈ songs, ∃ n : Nat, s.playCount = .num n)
    (hu1 : u < 1) :
    (∀ s ∈ songs, weight (K := K) s = some (specWeight s)) ∧
    ∃ k e, songs[k]? = some e ∧ e ∈ songs ∧ weightedPick songs u v = some e ∧
      u * (songs.map specWeight).sum ≤ runningWeight (K := K) songs (k + 1) ∧
      ∀ j < k, runningWeight (K := K) songs (j + 1) < u * (songs.map specWeight).sum := by
  have hw : ∀ s ∈ songs, weight (K := K) s = some (specWeight s) := by
    intro s hs
    obtain ⟨n, hn⟩ := hpc s hs
    exact (weight_of_count s n hn).1
  have hpos : ∀ s ∈ songs, (0 : K) < specWeight s := by
    intro s hs
    obtain ⟨n, hn⟩ := hpc s hs
    exact (weight_of_count s n hn).2
  have htot := specWeight_sum_nonneg (K := K) songs hpos
  have hle : u * (songs.map specWeight).sum ≤ (songs.map (specWeight (K := K))).sum := by
    nlinarith
  obtain ⟨k, e, hk, hloop, hreach, hfirst⟩ := weightedLoop_first songs _ hw hne hle
  refine ⟨hw, k, e, hk, List.mem_iff_getElem?.mpr ⟨k, hk⟩, ?_, hreach, hfirst⟩
  simp [weightedPick, totalWeight_eq songs hw, jsMul, hloop]

theorem pickSmartNext_no_favorites {K : Type} [LinearOrderedField K] [FloorRing K]
    (songs : List Song) (rand : Nat → K) (h : ∀ s ∈ songs, s.favorite.truthy = false) :
    pickSmartNext songs rand = weightedPick songs (rand 0) (rand 1) := by
  have hnil : songs.filter (fun s => s.favorite.truthy) = [] := by
    rw [List.filter_eq_nil_iff]
    intro s hs
    simp [h s hs]
  simp [pickSmartNext, hnil]

theorem pick_of_two {K : Type} [LinearOrderedField K] [FloorRing K] (a b : Song)
    (ha : a.playCount = .num 0) (hb : b.playCount = .num 9)
    (hfa : a.favorite.truthy = false) (hfb : b.favorite.truthy = false)
    (u : K) (rest : Nat → K) (hu : u < 1) :
    pickSmartNext [a, b] (drawsFrom u rest) = if u ≤ 9 / 10 then some a else some b := by
  rw [pickSmartNext_no_favorites [a, b] _ (by
    intro s hs
    simp only [List.mem_cons, List.mem_singleton, List.not_mem_nil, or_false] at hs
    rcases hs with rfl | rfl
    · exact hfa
    · exact hfb)]
  have hwa : weight (K := K) a = some 1 := by
    simp [weight, ha, JsVal.or, JsVal.truthy]
  have hwb : weight (K := K) b = some (1 / 9) := by
    simp [weight, hb, JsVal.or, JsVal.truthy]
  have h1 : (u * (0 + 1 + 1 / 9) - 1 ≤ 0) ↔ u ≤ 9 / 10 := by
    constructor <;> intro h <;> linarith
  have h2 : u * (0 + 1 + 1 / 9) - 1 - 1 / 9 ≤ 0 := by linarith
  simp only [weightedPick, totalWeight, List.foldl_cons, List.foldl_nil, hwa, hwb, jsAdd, jsMul,
    weightedLoop, jsSub, jsLeZero, drawsFrom, h1, h2]
  by_cases h : u ≤ 9 / 10 <;> simp [h]
theorem two_entry_shares (a b : Song)
    (ha : a.playCount = .num 0) (hb : b.playCount = .num 9)
    (hfa : a.favorite.truthy = false) (hfb : b.favorite.truthy = false) (rest : Nat → ℝ) :
    MeasureTheory.volume
        {u : ℝ | 0 ≤ u ∧ u < 1 ∧ pickSmartNext [a, b] (drawsFrom u rest) = some a} =
      ENNReal.ofReal (9 / 10) ∧
    MeasureTheory.volume
        {u : ℝ | 0 ≤ u ∧ u < 1 ∧ pickSmartNext [a, b] (drawsFrom u rest) = some b} =
      ENNReal.ofReal (1 / 10) := by
  have hab : a ≠ b := by
    intro h
    rw [h, hb] at ha
    exact absurd ha (by decide)
  have hA : {u : ℝ | 0 ≤ u ∧ u < 1 ∧ pickSmartNext [a, b] (drawsFrom u rest) = some a} =
      Set.Icc 0 (9 / 10) := by
    ext u
    simp only [Set.mem_setOf_eq, Set.mem_Icc]
    constructor
    · rintro ⟨h0, h1, hp⟩
      rw [pick_of_two a b ha hb hfa hfb u rest h1] at hp
      refine ⟨h0, ?_⟩
      by_contra hu
      rw [if_neg hu] at hp
      exact hab (Option.some.inj hp).symm
    · rintro ⟨h0, h9⟩
      have h1 : u < 1 := by linarith
      exact ⟨h0, h1, by rw [pick_of_two a b ha hb hfa hfb u rest h1, if_pos h9]⟩
  have hB : {u : ℝ | 0 ≤ u ∧ u < 1 ∧ pickSmartNext [a, b] (drawsFrom u rest) = some b} =
      Set.Ioo (9 / 10) 1 := by
    ext u
    simp only [Set.mem_setOf_eq, Set.mem_Ioo]
    constructor
    · rintro ⟨_, h1, hp⟩
      rw [pick_of_two a b ha hb hfa hfb u rest h1] at hp
      refine ⟨?_, h1⟩
      by_contra hu
      rw [if_pos (not_lt.mp hu)] at hp
      exact hab (Option.some.inj hp)
    · rintro ⟨h9, h1⟩
      exact ⟨by linarith, h1,
        by rw [pick_of_two a b ha hb hfa hfb u rest h1, if_neg (not_le.mpr h9)]⟩
  rw [hA, hB, Real.volume_Icc, Real.volume_Ioo]
  norm_num

/-- C8, as the code has it: in the weighted branch over two unfavorited entries with play
counts 0 and 9, in that order, the uniform draws in `[0, 1)` that select the first entry have
measure 9/10 and those that select the second have measure 1/10: the first entry is selected 9
times as often as the second. -/
theorem fresh_entry_nine_times_as_often (a b : Song)
    (ha : a.playCount = .num 0) (hb : b.playCount = .num 9)
    (hfa : a.favorite.truthy = false) (hfb : b.favorite.truthy = false) (rest : Nat → ℝ) :
    MeasureTheory.volume
        {u : ℝ | 0 ≤ u ∧ u < 1 ∧ pickSmartNext [a, b] (drawsFrom u rest) = some a} =
      ENNReal.ofReal (9 / 10) ∧
    MeasureTheory.volume
        {u : ℝ | 0 ≤ u ∧ u < 1 ∧ pickSmartNext [a, b] (drawsFrom u rest) = some b} =
      ENNReal.ofReal (1 / 10) ∧
    MeasureTheory.volume
        {u : ℝ | 0 ≤ u ∧ u < 1 ∧ pickSmartNext [a, b] (drawsFrom u rest) = some a} =
      9 * MeasureTheory.volume
        {u : ℝ | 0 ≤ u ∧ u < 1 ∧ pickSmartNext [a, b] (drawsFrom u rest) = some b} := by
  obtain ⟨hA, hB⟩ := two_entry_shares a b ha hb hfa hfb rest
  refine ⟨hA, hB, ?_⟩
  rw [hA, hB, show (9 : ENNReal) = ENNReal.ofReal 9 by norm_num,
    ← ENNReal.ofReal_mul (by norm_num)]
  norm_num

theorem fresh_entry_nine_times_as_often_witness :
    MeasureTheory.volume
        {u : ℝ | 0 ≤ u ∧ u < 1 ∧
          pickSmartNext [songFresh, songPlayed] (drawsFrom u (fun _ => 0)) = some songFresh} =
      ENNReal.ofReal (9 / 10) ∧
    MeasureTheory.volume
        {u : ℝ | 0 ≤ u ∧ u < 1 ∧
          pickSmartNext [songFresh, songPlayed] (drawsFrom u (fun _ => 0)) = some songPlayed} =
      ENNReal.ofReal (1 / 10) ∧
    MeasureTheory.volume
        {u : ℝ | 0 ≤ u ∧ u < 1 ∧
          pickSmartNext [songFresh, songPlayed] (drawsFrom u (fun _ => 0)) = some songFresh} =
      9 * MeasureTheory.volume
        {u : ℝ | 0 ≤ u ∧ u < 1 ∧
          pickSmartNext [songFresh, songPlayed] (drawsFrom u (fun _ => 0)) = some songPlayed} :=
  fresh_entry_nine_times_as_often songFresh songPlayed rfl rfl rfl rfl (fun _ => 0)

/-- C8 as stated fails: over the entries with play counts 0 and 9, the measure of the draws
that select the first is not 10 times the measure of the draws that select the second. -/
theorem fresh_entry_ten_times_counterexample :
    MeasureTheory.volume
        {u : ℝ | 0 ≤ u ∧ u < 1 ∧
          pickSmartNext [songFresh, songPlayed] (drawsFrom u (fun _ => 0)) = some songFresh} ≠
      10 * MeasureTheory.volume
        {u : ℝ | 0 ≤ u ∧ u < 1 ∧
          pickSmartNext [songFresh, songPlayed] (drawsFrom u (fun _ => 0)) = some songPlayed} := by
  obtain ⟨hA, hB⟩ := two_entry_shares songFresh songPlayed rfl rfl rfl rfl (fun _ => 0)
  rw [hA, hB, show (10 : ENNReal) = ENNReal.ofReal 10 by norm_num,
    ← ENNReal.ofReal_mul (by norm_num)]
  intro h
  rw [ENNReal.ofReal_eq_ofReal_iff (by norm_num) (by norm_num)] at h
  norm_num at h
theorem songPayload_favorite (songData : Song) (stableId : JsVal) :
    (songPayload songData stableId).favorite = .undefined := rfl

theorem reconciled_pick_is_weighted {K : Type} [LinearOrderedField K] [FloorRing K]
    (toLowerCase : String → String) (db db1 : DB) (entries : List Song)
    (hkeys : ∀ s ∈ db.songs, s.id.validKey = true)
    (hflag : ∀ s ∈ db.songs, s.favorite.truthy = false)
    (hload : loadPlaylist toLowerCase db "" = .ok (db1, entries)) (rand : Nat → K) :
    pickSmartNext entries rand = weightedPick entries (rand 0) (rand 1) := by
  rw [loadPlaylist_unfiltered toLowerCase db hkeys] at hload
  have hent : entries = db.songs.filter isValid ++
      missingFavs (db.songs.filter isValid) db.favorites := by
    injection hload with h
    exact (Prod.mk.inj h).2.symm
  apply pickSmartNext_no_favorites
  intro e he
  rw [hent] at he
  rcases List.mem_append.mp he with h | h
  · exact hflag e (List.mem_of_mem_filter h)
  · obtain ⟨f, _, _, rfl⟩ := mem_missingFavs.mp h
    rfl

/-- C6 fails on the code: two files are ingested, the first entry is made a favorite, and the
list is reconciled; the first entry then has a favorite snapshot and the second has none, yet
with a first draw of 11/20, below 0.6, `pickSmartNext` returns the second entry.  No entry of
the list carries the key `favorite` that `pickSmartNext` filters on. -/
theorem smart_pick_misses_favorite :
    ∃ db1 db2 db3,
      storeSong asciiLower {} (some (.file "Alpha.mp3" "audio/mpeg" 5)) .undefined "a" =
        .ok (.stored, db1) ∧
      storeSong asciiLower db1 (some (.file "Beta.mp3" "audio/mpeg" 5)) .undefined "b" =
        .ok (.stored, db2) ∧
      loadPlaylist asciiLower db2 "" = .ok (db2, [trackAlpha, trackBeta]) ∧
      addFavorite db2 (some trackAlpha) 7 = .ok db3 ∧
      loadPlaylist asciiLower db3 "" = .ok (db3, [trackAlpha, trackBeta]) ∧
      (∃ f ∈ db3.favorites, f.songId = trackAlpha.id) ∧
      (∀ f ∈ db3.favorites, f.songId ≠ trackBeta.id) ∧
      [trackAlpha, trackBeta].filter (fun s => s.favorite.truthy) = [] ∧
      (11 / 20 : ℚ) < 6 / 10 ∧
      pickSmartNext [trackAlpha, trackBeta] (drawsFrom (11 / 20 : ℚ) (fun _ => 0)) =
        some trackBeta := by
  refine ⟨{ songs := [trackAlpha] }, { songs := [trackAlpha, trackBeta] },
    { songs := [trackAlpha, trackBeta], favorites := [favoriteClone trackAlpha 7] },
    rfl, rfl, rfl, rfl, rfl, ⟨_, List.mem_singleton.mpr rfl, rfl⟩, ?_, rfl, by norm_num, ?_⟩
  · intro f hf
    rw [List.mem_singleton.mp hf]
    decide
  · rw [pickSmartNext_no_favorites _ _ (by decide)]
    have hwa : weight (K := ℚ) trackAlpha = some 1 := by
      simp [weight, trackAlpha, JsVal.or, JsVal.truthy]
    have hwb : weight (K := ℚ) trackBeta = some 1 := by
      simp [weight, trackBeta, JsVal.or, JsVal.truthy]
    simp only [weightedPick, totalWeight, List.foldl_cons, List.foldl_nil, hwa, hwb, jsAdd, jsMul,
      weightedLoop, jsSub, jsLeZero, drawsFrom]
    norm_num
/-! ## The weighted choice in double precision: rounding -/

namespace Double

theorem bitLength_bounds (fuel : Nat) :
    ∀ n : Nat, n ≤ fuel → n < 2 ^ bitLength fuel n ∧
      (0 < n → 2 ^ (bitLength fuel n - 1) ≤ n) := by
  induction fuel with
  | zero =>
    intro n hn
    have h0 : n = 0 := Nat.le_zero.mp hn
    subst h0
    simp [bitLength]
  | succ f ih =>
    intro n hn
    unfold bitLength
    by_cases hz : n = 0
    · subst hz
      simp
    · rw [if_neg hz]
      have hhalf : n / 2 ≤ f := by omega
      obtain ⟨hup, hlow⟩ := ih (n / 2) hhalf
      constructor
      · rw [pow_succ]
        omega
      · intro _
        rw [Nat.add_sub_cancel]
        by_cases hq : n / 2 = 0
        · have h1 : n = 1 := by omega
          subst h1
          simp [bitLength]
          cases f <;> simp [bitLength]
        · have hpos : 0 < n / 2 := Nat.pos_of_ne_zero hq
          have hl := hlow hpos
          have hbl : 1 ≤ bitLength f (n / 2) := by
            by_contra hcon
            have hb0 : bitLength f (n / 2) = 0 := by omega
            rw [hb0] at hup
            omega
          have hsplit : 2 ^ bitLength f (n / 2) = 2 * 2 ^ (bitLength f (n / 2) - 1) := by
            rw [← pow_succ']
            congr 1
            omega
          rw [hsplit]
          omega

theorem scaled_ge (a den : Nat) (ha : 0 < a) :
    2 ^ 52 * (den * 2 ^ (bitLength a a - (bitLength den den + 53))) ≤
      a * 2 ^ (bitLength den den + 53 - bitLength a a) := by
  obtain ⟨haup, halow⟩ := bitLength_bounds a a (Nat.le_refl a)
  obtain ⟨hdup, _⟩ := bitLength_bounds den den (Nat.le_refl den)
  have hlow := halow ha
  have hla : 1 ≤ bitLength a a := by
    by_contra hcon
    have hb0 : bitLength a a = 0 := by omega
    rw [hb0] at haup
    omega
  generalize bitLength a a = la at *
  generalize bitLength den den = ld at *
  have hexp : 52 + ld + (la - (ld + 53)) = (la - 1) + (ld + 53 - la) := by omega
  calc 2 ^ 52 * (den * 2 ^ (la - (ld + 53)))
      ≤ 2 ^ 52 * (2 ^ ld * 2 ^ (la - (ld + 53))) :=
        Nat.mul_le_mul_left _ (Nat.mul_le_mul_right _ hdup.le)
    _ = 2 ^ (52 + ld + (la - (ld + 53))) := by rw [pow_add, pow_add, Nat.mul_assoc]
    _ = 2 ^ (la - 1) * 2 ^ (ld + 53 - la) := by rw [hexp, pow_add]
    _ ≤ a * 2 ^ (ld + 53 - la) := Nat.mul_le_mul_right _ hlow

theorem roundRatio_spec (num : Int) (den : Nat) (hnum : 0 < num) (hden : 0 < den) :
    ∃ sN sD q m : Nat, roundRatio num den = ⟨(m : Int), (sD : Int) - (sN : Int)⟩ ∧
      q * (den * 2 ^ sD) ≤ num.natAbs * 2 ^ sN ∧ 2 ^ 52 ≤ q ∧
      (m = q ∨ (m = q + 1 ∧ (2 * q + 1) * (den * 2 ^ sD) ≤ 2 * (num.natAbs * 2 ^ sN))) := by
  have ha : 0 < num.natAbs := Int.natAbs_pos.mpr hnum.ne'
  have hnot : ¬ (num.natAbs = 0 ∨ den = 0) := by omega
  have hsign : ¬ num < 0 := by omega
  have hscaled := scaled_ge num.natAbs den ha
  unfold roundRatio
  simp only [hnot, if_false, hsign]
  generalize bitLength den den + 53 - bitLength num.natAbs num.natAbs = sN at *
  generalize bitLength num.natAbs num.natAbs - (bitLength den den + 53) = sD at *
  generalize hup : (if 2 ^ 53 * (den * 2 ^ sD) ≤ num.natAbs * 2 ^ sN then 1 else 0 : Nat) = up
  have hnorm : 2 ^ 52 * (den * 2 ^ (sD + up)) ≤ num.natAbs * 2 ^ sN := by
    by_cases hc : 2 ^ 53 * (den * 2 ^ sD) ≤ num.natAbs * 2 ^ sN
    · rw [if_pos hc] at hup
      subst hup
      calc 2 ^ 52 * (den * 2 ^ (sD + 1)) = 2 ^ 53 * (den * 2 ^ sD) := by ring
        _ ≤ num.natAbs * 2 ^ sN := hc
    · rw [if_neg hc] at hup
      subst hup
      simpa using hscaled
  have hDpos : 0 < den * 2 ^ (sD + up) := Nat.mul_pos hden (pow_pos (by norm_num) _)
  generalize hD : den * 2 ^ (sD + up) = D at *
  generalize hN : num.natAbs * 2 ^ sN = N at *
  have hq : N / D * D ≤ N := Nat.div_mul_le_self N D
  have hq52 : 2 ^ 52 ≤ N / D := (Nat.le_div_iff_mul_le hDpos).mpr hnorm
  have hdm : D * (N / D) + N % D = N := Nat.div_add_mod N D
  by_cases hc : 2 * (N % D) > D ∨ (2 * (N % D) = D ∧ N / D % 2 = 1)
  · refine ⟨sN, sD + up, N / D, N / D + 1, ?_, ?_, hq52, Or.inr ⟨rfl, ?_⟩⟩
    · simp only [if_pos hc]
    · rw [hD, hN]
      exact hq
    · rw [hD, hN]
      have h2r : D ≤ 2 * (N % D) := by
        rcases hc with h | ⟨h, _⟩
        · exact h.le
        · exact h.ge
      have : (2 * (N / D) + 1) * D = 2 * (D * (N / D)) + D := by ring
      rw [this]
      omega
  · refine ⟨sN, sD + up, N / D, N / D, ?_, ?_, hq52, Or.inl rfl⟩
    · simp only [if_neg hc]
    · rw [hD, hN]
      exact hq

end Double

/-! ## The weighted choice in double precision: the loop and its fallback -/

theorem max_draw_aux (M D c : Nat) (hD : M < D) (hc : M < c) : M * c ≤ D * (c - 1) := by
  obtain ⟨e, rfl⟩ := Nat.exists_eq_add_of_lt hD
  obtain ⟨f, rfl⟩ := Nat.exists_eq_add_of_lt hc
  have h1 : M + f + 1 - 1 = M + f := by omega
  rw [h1]
  nlinarith [Nat.zero_le (e * M), Nat.zero_le (e * f), Nat.zero_le f]

theorem unitDraw_bounds (v : Double) (hv : unitDraw v) :
    0 ≤ v.num ∧ v.num.natAbs < v.den ∧ v.num.natAbs * 2 ^ 53 ≤ v.den * (2 ^ 53 - 1) := by
  obtain ⟨h0, h53, hlt⟩ := hv
  have hnum0 : 0 ≤ v.num := by
    unfold Double.num
    exact Int.mul_nonneg h0 (by positivity)
  have habs : (v.num.natAbs : Int) = v.num := Int.natAbs_of_nonneg hnum0
  have hlt' : v.num.natAbs < v.den := by
    have : (v.num.natAbs : Int) < (v.den : Int) := by rw [habs]; exact hlt
    exact_mod_cast this
  refine ⟨hnum0, hlt', ?_⟩
  by_cases hexp : 0 ≤ v.exp
  · have hden : v.den = 1 := by
      unfold Double.den
      have : (-v.exp).toNat = 0 := by omega
      rw [this]
      rfl
    rw [hden] at hlt'
    have : v.num.natAbs = 0 := by omega
    rw [this]
    simp
  · have hnum : v.num = v.mant := by
      unfold Double.num
      have : v.exp.toNat = 0 := by omega
      rw [this]
      simp
    have hM : v.num.natAbs < 2 ^ 53 := by
      have : (v.num.natAbs : Int) < 2 ^ 53 := by rw [habs, hnum]; exact h53
      exact_mod_cast this
    exact max_draw_aux _ _ _ hlt' hM

theorem round_below (vn d n X Y q m : Nat) (hd : 0 < d) (hn : 0 < n) (hX : 0 < X) (hY : 0 < Y)
    (hlt : vn < d) (hmax : vn * 2 ^ 53 ≤ d * (2 ^ 53 - 1))
    (h1 : q * (d * Y) ≤ vn * n * X) (h2 : 2 ^ 52 ≤ q)
    (h3 : m = q ∨ (m = q + 1 ∧ (2 * q + 1) * (d * Y) ≤ 2 * (vn * n * X))) :
    m * Y < n * X := by
  by_contra hcon
  have hle : n * X ≤ m * Y := Nat.le_of_not_lt hcon
  have hW : 0 < n * X := Nat.mul_pos hn hX
  rcases h3 with rfl | ⟨rfl, h3⟩
  · have ha : d * (n * X) ≤ d * (m * Y) := Nat.mul_le_mul_left d hle
    have hb : vn * (n * X) < d * (n * X) := Nat.mul_lt_mul_of_pos_right hlt hW
    have hc : m * (d * Y) = d * (m * Y) := by ring
    have hd' : vn * n * X = vn * (n * X) := by ring
    omega
  · have hP : 0 < d * Y := Nat.mul_pos hd hY
    have ha : d * (n * X) ≤ (q + 1) * (d * Y) := by
      calc d * (n * X) ≤ d * ((q + 1) * Y) := Nat.mul_le_mul_left d hle
        _ = (q + 1) * (d * Y) := by ring
    have hb : (2 * q + 1) * (d * Y) * 2 ^ 53 ≤ 2 * (2 ^ 53 - 1) * ((q + 1) * (d * Y)) := by
      calc (2 * q + 1) * (d * Y) * 2 ^ 53 ≤ 2 * (vn * n * X) * 2 ^ 53 :=
            Nat.mul_le_mul_right _ h3
        _ = 2 * (n * X) * (vn * 2 ^ 53) := by ring
        _ ≤ 2 * (n * X) * (d * (2 ^ 53 - 1)) := Nat.mul_le_mul_left _ hmax
        _ = 2 * (2 ^ 53 - 1) * (d * (n * X)) := by ring
        _ ≤ 2 * (2 ^ 53 - 1) * ((q + 1) * (d * Y)) := Nat.mul_le_mul_left _ ha
    have hc : (2 * q + 1) * 2 ^ 53 * (d * Y) ≤ 2 * (2 ^ 53 - 1) * (q + 1) * (d * Y) := by
      calc (2 * q + 1) * 2 ^ 53 * (d * Y) = (2 * q + 1) * (d * Y) * 2 ^ 53 := by ring
        _ ≤ 2 * (2 ^ 53 - 1) * ((q + 1) * (d * Y)) := hb
        _ = 2 * (2 ^ 53 - 1) * (q + 1) * (d * Y) := by ring
    have hfin := Nat.le_of_mul_le_mul_right hc hP
    norm_num at hfin h2
    omega

namespace Ieee

theorem doubleWeight_of_count (s : Song) (n : Nat) (h : s.playCount = .num n) :
    weight s = some (Double.oneOver (max (n : Int) 1)) := by
  unfold weight
  rw [h]
  rcases Nat.eq_zero_or_pos n with h0 | hpos
  · subst h0
    simp [JsVal.or, JsVal.truthy]
  · have hn : (n : Int) ≠ 0 := by exact_mod_cast hpos.ne.symm
    have hmax : max (n : Int) 1 = n := max_eq_left (by exact_mod_cast hpos)
    simp [JsVal.or, JsVal.truthy, hn, hmax]

theorem remainder_cons_succ (s : Song) (rest : List Song) (r : Option Double) (j : Nat) :
    remainder (s :: rest) r (j + 1) = remainder rest (jsSub r (weight s)) j := by
  simp [remainder]

theorem remainder_one (s : Song) (rest : List Song) (r : Option Double) :
    remainder (s :: rest) r 1 = jsSub r (weight s) := by
  simp [remainder]

theorem weightedLoop_spec (songs : List Song) :
    ∀ r : Option Double,
      (∃ k e, songs[k]? = some e ∧ weightedLoop songs r = some e ∧
        jsLeZero (remainder songs r (k + 1)) = true ∧
        ∀ j < k, jsLeZero (remainder songs r (j + 1)) = false) ∨
      (weightedLoop songs r = none ∧
        ∀ j < songs.length, jsLeZero (remainder songs r (j + 1)) = false) := by
  induction songs with
  | nil =>
    intro r
    right
    exact ⟨rfl, fun j hj => absurd hj (Nat.not_lt_zero j)⟩
  | cons s rest ih =>
    intro r
    by_cases hr : jsLeZero (jsSub r (weight s)) = true
    · left
      refine ⟨0, s, by simp, ?_, ?_, ?_⟩
      · simp [weightedLoop, hr]
      · rw [remainder_one]
        exact hr
      · intro j hj
        exact absurd hj (Nat.not_lt_zero j)
    · have hr' : jsLeZero (jsSub r (weight s)) = false := by simpa using hr
      rcases ih (jsSub r (weight s)) with ⟨k, e, hk, hloop, hreach, hfirst⟩ | ⟨hloop, hall⟩
      · left
        refine ⟨k + 1, e, by simpa using hk, ?_, ?_, ?_⟩
        · simp [weightedLoop, hr', hloop]
        · rw [remainder_cons_succ]
          exact hreach
        · intro j hj
          cases j with
          | zero =>
            rw [remainder_one]
            exact hr'
          | succ i =>
            rw [remainder_cons_succ]
            exact hfirst i (Nat.lt_of_succ_lt_succ hj)
      · right
        refine ⟨by simp [weightedLoop, hr', hloop], ?_⟩
        intro j hj
        cases j with
        | zero =>
          rw [remainder_one]
          exact hr'
        | succ i =>
          rw [remainder_cons_succ]
          exact hall i (Nat.lt_of_succ_lt_succ (by simpa using hj))

end Ieee

theorem floor_mk_bounds (m n sN sD : Nat) (h : m * 2 ^ sD < n * 2 ^ sN) :
    0 ≤ (Double.mk (m : Int) ((sD : Int) - (sN : Int))).floor ∧
    (Double.mk (m : Int) ((sD : Int) - (sN : Int))).floor < (n : Int) := by
  unfold Double.floor Double.num Double.den
  simp only []
  constructor
  · apply Int.ediv_nonneg
    · positivity
    · positivity
  · apply Int.ediv_lt_of_lt_mul
    · positivity
    · rcases Nat.le_total sD sN with hle | hle
      · obtain ⟨t, rfl⟩ := Nat.exists_eq_add_of_le hle
        have e1 : ((sD : Int) - ((sD + t : Nat) : Int)).toNat = 0 := by omega
        have e2 : (-((sD : Int) - ((sD + t : Nat) : Int))).toNat = t := by omega
        rw [e1, e2]
        have h2 : m * 2 ^ sD < n * 2 ^ t * 2 ^ sD := by
          calc m * 2 ^ sD < n * 2 ^ (sD + t) := h
            _ = n * 2 ^ t * 2 ^ sD := by ring
        have h3 : m < n * 2 ^ t := Nat.lt_of_mul_lt_mul_right h2
        have : (m : Int) < (n : Int) * 2 ^ t := by exact_mod_cast h3
        simpa using this
      · obtain ⟨t, rfl⟩ := Nat.exists_eq_add_of_le hle
        have e1 : (((sN + t : Nat) : Int) - (sN : Int)).toNat = t := by omega
        have e2 : (-(((sN + t : Nat) : Int) - (sN : Int))).toNat = 0 := by omega
        rw [e1, e2]
        have h2 : m * 2 ^ t * 2 ^ sN < n * 2 ^ sN := by
          calc m * 2 ^ t * 2 ^ sN = m * 2 ^ (sN + t) := by ring
            _ < n * 2 ^ sN := h
        have h3 : m * 2 ^ t < n := Nat.lt_of_mul_lt_mul_right h2
        have : (m : Int) * 2 ^ t < (n : Int) := by exact_mod_cast h3
        simpa using this

theorem ofNat_num (n : Nat) : (Double.ofNat n).num = (n : Int) := by
  simp [Double.ofNat, Double.num]

theorem ofNat_den (n : Nat) : (Double.ofNat n).den = 1 := by
  simp [Double.ofNat, Double.den]

theorem draw_floor_bounds (v : Double) (n : Nat) (hv : unitDraw v) (hn : 0 < n) :
    0 ≤ (v.mul (Double.ofNat n)).floor ∧ (v.mul (Double.ofNat n)).floor < (n : Int) := by
  obtain ⟨hnum0, hlt, hmax⟩ := unitDraw_bounds v hv
  have hden : 0 < v.den := by
    unfold Double.den
    positivity
  unfold Double.mul
  rw [ofNat_num, ofNat_den, Nat.mul_one]
  rcases hnum0.lt_or_eq with hpos | hzero
  · have hprod : 0 < v.num * (n : Int) := Int.mul_pos hpos (by exact_mod_cast hn)
    obtain ⟨sN, sD, q, m, hround, h1, h2, h3⟩ :=
      Double.roundRatio_spec (v.num * (n : Int)) v.den hprod hden
    rw [hround]
    apply floor_mk_bounds
    have habs : (v.num * (n : Int)).natAbs = v.num.natAbs * n := by
      rw [Int.natAbs_mul, Int.natAbs_ofNat]
    rw [habs] at h1 h3
    exact round_below v.num.natAbs v.den n (2 ^ sN) (2 ^ sD) q m hden hn (by positivity)
      (by positivity) hlt hmax h1 h2 h3
  · rw [← hzero]
    have : Double.roundRatio (0 * (n : Int)) v.den = ⟨0, 0⟩ := by
      simp [Double.roundRatio]
    rw [this]
    refine ⟨by decide, ?_⟩
    have : (Double.mk 0 0).floor = 0 := by decide
    rw [this]
    exact_mod_cast hn

theorem randomElement_mem (songs : List Song) (v : Double) (hne : songs ≠ [])
    (hv : unitDraw v) :
    ∃ (k : Nat) (e : Song), songs[k]? = some e ∧ Ieee.randomElement songs v = some e ∧
      (k : Int) = (v.mul (Double.ofNat songs.length)).floor := by
  have hlen : 0 < songs.length := List.length_pos.mpr hne
  obtain ⟨h0, hlt⟩ := draw_floor_bounds v songs.length hv hlen
  have hk : (v.mul (Double.ofNat songs.length)).floor.toNat < songs.length := by omega
  refine ⟨(v.mul (Double.ofNat songs.length)).floor.toNat, songs[(v.mul (Double.ofNat songs.length)).floor.toNat], ?_, ?_, ?_⟩
  · exact List.getElem?_eq_getElem hk
  · unfold Ieee.randomElement
    simp only []
    rw [if_neg (by omega)]
    simp [List.getElem?_eq_getElem hk]
  · omega

/-- C7, as the code has it: in the weighted branch of `pickSmartNext`, on a non-empty list whose
play counts are non-negative integers, every entry has the weight `1 / max(playCount, 1)`,
rounded to a double, and for every draw `u` and every fallback draw `v` in `[0, 1)` the branch
returns an element of the list.  With `r = u * total` in double precision, that element is the
first entry, in list order, at which the remainder of `r` after subtracting the weights up to
and including that entry is at most 0, when there is one; when every remainder is positive it
is the entry at index `Math.floor(v * songs.length)`. -/
theorem weighted_pick_in_doubles (songs : List Song) (u v : Double)
    (hne : songs ≠ [])
    (hpc : ∀ s ∈ songs, ∃ n : Nat, s.playCount = .num n)
    (hv : unitDraw v) :
    (∀ s ∈ songs, ∃ n : Nat, s.playCount = .num n ∧
      Ieee.weight s = some (Double.oneOver (max (n : Int) 1))) ∧
    ∃ (k : Nat) (e : Song), songs[k]? = some e ∧ e ∈ songs ∧
      Ieee.weightedPick songs u v = some e ∧
      ((Ieee.jsLeZero
            (Ieee.remainder songs (Ieee.jsMul (some u) (Ieee.totalWeight songs)) (k + 1)) = true ∧
          ∀ j < k, Ieee.jsLeZero
            (Ieee.remainder songs (Ieee.jsMul (some u) (Ieee.totalWeight songs)) (j + 1)) =
              false) ∨
        ((∀ j < songs.length, Ieee.jsLeZero
            (Ieee.remainder songs (Ieee.jsMul (some u) (Ieee.totalWeight songs)) (j + 1)) =
              false) ∧
          (k : Int) = (v.mul (Double.ofNat songs.length)).floor)) := by
  refine ⟨fun s hs => ?_, ?_⟩
  · obtain ⟨n, hn⟩ := hpc s hs
    exact ⟨n, hn, Ieee.doubleWeight_of_count s n hn⟩
  rcases Ieee.weightedLoop_spec songs (Ieee.jsMul (some u) (Ieee.totalWeight songs)) with
    ⟨k, e, hk, hloop, hreach, hfirst⟩ | ⟨hloop, hall⟩
  · refine ⟨k, e, hk, List.mem_iff_getElem?.mpr ⟨k, hk⟩, ?_, Or.inl ⟨hreach, hfirst⟩⟩
    simp [Ieee.weightedPick, hloop]
  · obtain ⟨k, e, hk, hrand, hidx⟩ := randomElement_mem songs v hne hv
    refine ⟨k, e, hk, List.mem_iff_getElem?.mpr ⟨k, hk⟩, ?_, Or.inr ⟨hall, hidx⟩⟩
    simp [Ieee.weightedPick, hloop, hrand]

set_option maxRecDepth 100000 in
theorem weighted_pick_in_doubles_witness :
    (∀ s ∈ [songFresh, songPlayed], ∃ n : Nat, s.playCount = .num n ∧
      Ieee.weight s = some (Double.oneOver (max (n : Int) 1))) ∧
    ∃ (k : Nat) (e : Song), [songFresh, songPlayed][k]? = some e ∧
      e ∈ [songFresh, songPlayed] ∧
      Ieee.weightedPick [songFresh, songPlayed] ⟨15, -4⟩ ⟨3, -2⟩ = some e ∧
      ((Ieee.jsLeZero
            (Ieee.remainder [songFresh, songPlayed]
              (Ieee.jsMul (some ⟨15, -4⟩) (Ieee.totalWeight [songFresh, songPlayed]))
              (k + 1)) = true ∧
          ∀ j < k, Ieee.jsLeZero
            (Ieee.remainder [songFresh, songPlayed]
              (Ieee.jsMul (some ⟨15, -4⟩) (Ieee.totalWeight [songFresh, songPlayed]))
              (j + 1)) = false) ∨
        ((∀ j < [songFresh, songPlayed].length, Ieee.jsLeZero
            (Ieee.remainder [songFresh, songPlayed]
              (Ieee.jsMul (some ⟨15, -4⟩) (Ieee.totalWeight [songFresh, songPlayed]))
              (j + 1)) = false) ∧
          (k : Int) = ((⟨3, -2⟩ : Double).mul
            (Double.ofNat [songFresh, songPlayed].length)).floor)) :=
  weighted_pick_in_doubles [songFresh, songPlayed] ⟨15, -4⟩ ⟨3, -2⟩ (by decide)
    (by
      intro s hs
      simp only [List.mem_cons, List.mem_singleton, List.not_mem_nil, or_false] at hs
      rcases hs with rfl | rfl
      · exact ⟨0, rfl⟩
      · exact ⟨9, rfl⟩)
    ⟨by decide, by decide, by decide⟩

set_option maxRecDepth 100000 in
/-- C7 fails as stated: on the list of three entries with the play counts 9, 2 and 9 and the
draw `u = 1 - 2 ^ (-52)`, the total is `6505199461757384 * 2 ^ (-53)` and `r` is one unit in the
last place below it, yet the loop of `pickSmartNext` ends with the remainder `2 ^ (-54)` and
returns nothing.  The entry then comes from the fallback: with the fallback draw 0 it is the
first entry, whose weight does not reach `r`, and with the fallback draw `3/4` it is the
third. -/
theorem weighted_pick_falls_through :
    unitDraw driftDraw ∧ unitDraw ⟨0, 0⟩ ∧ unitDraw ⟨3, -2⟩ ∧
    Ieee.totalWeight driftSongs = some ⟨6505199461757384, -53⟩ ∧
    Ieee.jsMul (some driftDraw) (Ieee.totalWeight driftSongs) =
      some ⟨6505199461757383, -53⟩ ∧
    Ieee.remainder driftSongs (Ieee.jsMul (some driftDraw) (Ieee.totalWeight driftSongs)) 3 =
      some ⟨4503599627370496, -106⟩ ∧
    Ieee.weightedLoop driftSongs (Ieee.jsMul (some driftDraw) (Ieee.totalWeight driftSongs)) =
      none ∧
    Ieee.jsLeZero
      (Ieee.remainder driftSongs (Ieee.jsMul (some driftDraw) (Ieee.totalWeight driftSongs)) 1) =
        false ∧
    Ieee.weightedPick driftSongs driftDraw ⟨0, 0⟩ = some (counted "x" 9) ∧
    Ieee.weightedPick driftSongs driftDraw ⟨3, -2⟩ = some (counted "z" 9) :=
  ⟨⟨by decide, by decide, by decide⟩, ⟨by decide, by decide, by decide⟩,
    ⟨by decide, by decide, by decide⟩, rfl, rfl, rfl, rfl, rfl, rfl, rfl⟩

/-! ## Ingest -/

theorem storeSong_file (toLowerCase : String → String) (db : DB) (name type : String)
    (size : Nat) (folder : JsVal) (uuid : String) (hname : name ≠ "") :
    storeSong toLowerCase db (some (.file name type size)) folder uuid =
      if !startsWith type "audio/" && !validExtensions.contains (toLowerCase (lastSegment name))
      then .ok (.skippedNonAudio, db)
      else if db.songs.any (fun s => decide (s.name = .str (stripExtension name)) &&
          decide (s.folder = if folder = .undefined then JsVal.null else folder))
        then .ok (.duplicateSkipped, db)
        else
          match addSongToDB db (ingestSong (stripExtension name) (.blob ⟨size, type⟩)
              (if folder = .undefined then JsVal.null else folder)) uuid with
          | .ok (_, db1) => .ok (.stored, db1)
          | .error e => .error e := by
  simp [storeSong, JsVal.truthy, hname, getAllSongsFromDB]

theorem addSongToDB_ingest (db : DB) (cleanedName : String) (blob folder : JsVal)
    (uuid : String) :
    addSongToDB db (ingestSong cleanedName blob folder) uuid =
      .ok (.str uuid, DB.mk
        (List.orderedInsert (fun a b : Song => JsVal.keyLe a.id b.id = true)
          (songPayload (ingestSong cleanedName blob folder) (.str uuid))
          (db.songs.filter (fun r => decide (r.id ≠ .str uuid))))
        db.favorites) := by
  simp [addSongToDB, storePut, ingestSong, JsVal.or, JsVal.truthy, songPayload, JsVal.validKey]

theorem stripExtension_ne_empty (name : String) (h : stripExtension name ≠ "") : name ≠ "" := by
  intro hn
  apply h
  rw [hn]
  rfl

theorem folder_default_stored (folder : JsVal)
    (h : folder = .undefined ∨ folder = .null ∨ folder.truthy = true) :
    (if folder = .undefined then JsVal.null else folder).or .null =
      if folder = .undefined then JsVal.null else folder := by
  rcases h with h | h | h
  · subst h
    rfl
  · subst h
    rfl
  · have hne : folder ≠ .undefined := by
      intro hu
      rw [hu] at h
      exact Bool.false_ne_true h
    simp [hne, JsVal.or, h]

/-- The deduplication of `storeSong` where it works: after a file whose name strips to a
non-empty name was ingested into a folder that is absent or truthy, a second accepted file that
strips to the same name is skipped as a duplicate and the store is left as it was. -/
theorem ingest_second_skipped (toLowerCase : String → String) (db : DB)
    (n1 t1 : String) (sz1 : Nat) (n2 t2 : String) (sz2 : Nat) (folder : JsVal) (u1 u2 : String)
    (hfolder : folder = .undefined ∨ folder = .null ∨ folder.truthy = true)
    (hsame : stripExtension n1 = stripExtension n2)
    (hne : stripExtension n1 ≠ "")
    (h1 : (startsWith t1 "audio/" ||
      validExtensions.contains (toLowerCase (lastSegment n1))) = true)
    (h2 : (startsWith t2 "audio/" ||
      validExtensions.contains (toLowerCase (lastSegment n2))) = true) :
    ∃ o db1,
      storeSong toLowerCase db (some (.file n1 t1 sz1)) folder u1 = .ok (o, db1) ∧
      (o = .stored ∨ o = .duplicateSkipped) ∧
      storeSong toLowerCase db1 (some (.file n2 t2 sz2)) folder u2 =
        .ok (.duplicateSkipped, db1) := by
  have hn1 := stripExtension_ne_empty n1 hne
  have hn2 := stripExtension_ne_empty n2 (by rw [← hsame]; exact hne)
  have hr1 : (!startsWith t1 "audio/" &&
      !validExtensions.contains (toLowerCase (lastSegment n1))) = false := by
    rw [← Bool.not_or, h1]
    rfl
  have hr2 : (!startsWith t2 "audio/" &&
      !validExtensions.contains (toLowerCase (lastSegment n2))) = false := by
    rw [← Bool.not_or, h2]
    rfl
  rw [storeSong_file toLowerCase db n1 t1 sz1 folder u1 hn1, hr1]
  simp only [Bool.false_eq_true, if_false]
  by_cases hdup : db.songs.any (fun s => decide (s.name = .str (stripExtension n1)) &&
      decide (s.folder = if folder = .undefined then JsVal.null else folder)) = true
  · refine ⟨.duplicateSkipped, db, by rw [if_pos hdup], Or.inr rfl, ?_⟩
    rw [storeSong_file toLowerCase db n2 t2 sz2 folder u2 hn2, hr2, ← hsame]
    simp only [Bool.false_eq_true, if_false]
    rw [if_pos hdup]
  · rw [if_neg hdup, addSongToDB_ingest]
    refine ⟨.stored, _, rfl, Or.inl rfl, ?_⟩
    rw [storeSong_file toLowerCase _ n2 t2 sz2 folder u2 hn2, hr2, ← hsame]
    simp only [Bool.false_eq_true, if_false]
    have hany : (List.orderedInsert (fun a b : Song => JsVal.keyLe a.id b.id = true)
        (songPayload (ingestSong (stripExtension n1) (.blob ⟨sz1, t1⟩)
          (if folder = .undefined then JsVal.null else folder)) (.str u1))
        (db.songs.filter (fun r => decide (r.id ≠ .str u1)))).any
        (fun s => decide (s.name = .str (stripExtension n1)) &&
          decide (s.folder = if folder = .undefined then JsVal.null else folder)) = true := by
      rw [List.any_eq_true]
      refine ⟨_, (List.mem_orderedInsert _).mpr (Or.inl rfl), ?_⟩
      have hname : (songPayload (ingestSong (stripExtension n1) (.blob ⟨sz1, t1⟩)
          (if folder = .undefined then JsVal.null else folder)) (.str u1)).name =
          .str (stripExtension n1) := by
        simp [songPayload, ingestSong, JsVal.or, JsVal.truthy, hne]
      have hfold : (songPayload (ingestSong (stripExtension n1) (.blob ⟨sz1, t1⟩)
          (if folder = .undefined then JsVal.null else folder)) (.str u1)).folder =
          if folder = .undefined then JsVal.null else folder :=
        folder_default_stored folder hfolder
      rw [hname, hfold]
      simp
    rw [if_pos hany]

/-- C9 fails on the code: the files `.mp3` and `.wav` are both accepted and both strip to the
empty name; ingested one after the other into the same (absent) folder, both are stored, and
the store then holds two records with the name `Untitled` and the same folder. -/
theorem ingest_duplicate_untitled :
    stripExtension ".mp3" = "" ∧ stripExtension ".wav" = "" ∧
    storeSong asciiLower {} (some (.file ".mp3" "audio/mpeg" 5)) .undefined "a" =
      .ok (.stored, { songs := [{ trackAlpha with name := .str "Untitled" }] }) ∧
    storeSong asciiLower { songs := [{ trackAlpha with name := .str "Untitled" }] }
        (some (.file ".wav" "audio/wav" 5)) .undefined "b" =
      .ok (.stored, { songs := [{ trackAlpha with name := .str "Untitled" },
        { trackBeta with name := .str "Untitled", blob := .blob ⟨5, "audio/wav"⟩ }] }) :=
  ⟨rfl, rfl, rfl, rfl⟩

theorem lastSegment_no_dot (name : String) (h : '.' ∉ name.data) : lastSegment name = name := by
  unfold lastSegment
  have hall : name.data.reverse.takeWhile (fun c => decide (c ≠ '.')) = name.data.reverse := by
    rw [List.takeWhile_eq_self_iff]
    intro c hc
    have hc' : c ∈ name.data := List.mem_reverse.mp hc
    have : c ≠ '.' := fun heq => h (heq ▸ hc')
    simpa using this
  rw [hall, List.reverse_reverse]

/-- The media-type test of `storeSong` on a file with a name: the call ends on the message
`Skipped non-audio`, without an error and with the database as it was, exactly when the declared
type does not start with `audio/` and the lowered last segment of the name is not one of
`mp3`, `wav`, `ogg`, `m4a`. -/
theorem storeSong_skips_iff (toLowerCase : String → String) (db : DB) (name type : String)
    (size : Nat) (folder : JsVal) (uuid : String) (hname : name ≠ "") :
    (startsWith type "audio/" = false ∧
        validExtensions.contains (toLowerCase (lastSegment name)) = false →
      storeSong toLowerCase db (some (.file name type size)) folder uuid =
        .ok (.skippedNonAudio, db)) ∧
    (¬ (startsWith type "audio/" = false ∧
        validExtensions.contains (toLowerCase (lastSegment name)) = false) →
      ∃ o db1, storeSong toLowerCase db (some (.file name type size)) folder uuid =
        .ok (o, db1) ∧ (o = .stored ∨ o = .duplicateSkipped)) := by
  rw [storeSong_file toLowerCase db name type size folder uuid hname]
  constructor
  · rintro ⟨h1, h2⟩
    rw [h1, h2]
    rfl
  · intro h
    have hr : (!startsWith type "audio/" &&
        !validExtensions.contains (toLowerCase (lastSegment name))) = false := by
      cases h1 : startsWith type "audio/" <;>
        cases h2 : validExtensions.contains (toLowerCase (lastSegment name)) <;> simp_all
    rw [hr]
    simp only [Bool.false_eq_true, if_false]
    by_cases hdup : db.songs.any (fun s => decide (s.name = .str (stripExtension name)) &&
        decide (s.folder = if folder = .undefined then JsVal.null else folder)) = true
    · exact ⟨_, _, by rw [if_pos hdup], Or.inr rfl⟩
    · rw [if_neg hdup, addSongToDB_ingest]
      exact ⟨_, _, rfl, Or.inl rfl⟩

/-- C10 fails on the code: the file named `mp3` has no file extension (its name has no `.`) and
its declared type, the empty string, does not start with `audio/`; `storeSong` does not reject
it but stores it as a song, because `name.split('.').pop()` is the whole name `mp3`. -/
theorem ingest_accepts_extensionless :
    '.' ∉ "mp3".data ∧ startsWith "" "audio/" = false ∧ lastSegment "mp3" = "mp3" ∧
    storeSong asciiLower {} (some (.file "mp3" "" 5)) .undefined "a" =
      .ok (.stored,
        { songs := [{ trackAlpha with name := .str "mp3", blob := .blob ⟨5, ""⟩ }] }) :=
  ⟨by decide, rfl, rfl, rfl⟩
/-! ## What `addSongToDB` writes -/

theorem songPayload_name_url (songData : Song) (stableId : JsVal) :
    (songPayload songData stableId).name ≠ .str "" ∧
      (songPayload songData stableId).url ≠ .str "" := by
  constructor
  · show songData.name.or (.str "Untitled") ≠ .str ""
    unfold JsVal.or
    by_cases h : songData.name.truthy = true
    · rw [if_pos h]
      intro heq
      rw [heq] at h
      exact absurd h (by decide)
    · rw [if_neg h]
      decide
  · show songData.url.or .null ≠ .str ""
    unfold JsVal.or
    by_cases h : songData.url.truthy = true
    · rw [if_pos h]
      intro heq
      rw [heq] at h
      exact absurd h (by decide)
    · rw [if_neg h]
      decide

theorem addSongToDB_id_truthy (db db1 : DB) (songData : Song) (uuid : String) (id : JsVal)
    (huuid : uuid ≠ "") (h : addSongToDB db songData uuid = .ok (id, db1)) :
    id.truthy = true ∧ songPayload songData id ∈ db1.songs := by
  unfold addSongToDB storePut at h
  by_cases hk : (songData.id.or (.str uuid)).validKey = true
  · simp only [songPayload, hk, if_true] at h
    injection h with h
    obtain ⟨hid, hdb⟩ := Prod.mk.inj h
    subst hid
    subst hdb
    refine ⟨?_, ?_⟩
    · unfold JsVal.or
      by_cases ht : songData.id.truthy = true
      · rw [if_pos ht]
        exact ht
      · rw [if_neg ht]
        simp [JsVal.truthy, huuid]
    · simp [List.mem_orderedInsert, songPayload]
  · simp [songPayload, hk] at h
/-! ## The song store -/

theorem storePut_eq {α : Type} (key : α → JsVal) (rec : α) (store : List α)
    (h : (key rec).validKey = true) :
    storePut key rec store =
      .ok (List.orderedInsert (fun a b => JsVal.keyLe (key a) (key b) = true) rec
        (store.filter (fun r => decide (key r ≠ key rec)))) := by
  simp [storePut, h]

theorem filter_orderedInsert_of_neg {α : Type} (r : α → α → Prop) [DecidableRel r]
    (p : α → Bool) (a : α) (l : List α) (ha : p a = false) :
    (List.orderedInsert r a l).filter p = l.filter p := by
  rw [List.orderedInsert_eq_take_drop, List.filter_append, List.filter_cons, ha]
  simp only [Bool.false_eq_true, if_false]
  rw [← List.filter_append, List.takeWhile_append_dropWhile]

theorem storePut_filter_key {α : Type} (key : α → JsVal) (rec : α) (store : List α) :
    (List.orderedInsert (fun a b => JsVal.keyLe (key a) (key b) = true) rec
      (store.filter (fun r => decide (key r ≠ key rec)))).filter
        (fun r => decide (key r = key rec)) = [rec] := by
  apply filter_orderedInsert_singleton
  · simp
  · intro x hx
    have := (List.mem_filter.mp hx).2
    simpa using this

theorem storePut_filter_others {α : Type} (key : α → JsVal) (rec : α) (store : List α) :
    (List.orderedInsert (fun a b => JsVal.keyLe (key a) (key b) = true) rec
      (store.filter (fun r => decide (key r ≠ key rec)))).filter
        (fun r => decide (key r ≠ key rec)) =
      store.filter (fun r => decide (key r ≠ key rec)) := by
  rw [filter_orderedInsert_of_neg _ _ _ _ (by simp), List.filter_filter]
  simp

theorem storePut_nodup {α : Type} (key : α → JsVal) (rec : α) (store : List α)
    (h : (store.map key).Nodup) :
    ((List.orderedInsert (fun a b => JsVal.keyLe (key a) (key b) = true) rec
      (store.filter (fun r => decide (key r ≠ key rec)))).map key).Nodup := by
  have hperm := (List.perm_orderedInsert (fun a b => JsVal.keyLe (key a) (key b) = true) rec
    (store.filter (fun r => decide (key r ≠ key rec)))).map key
  rw [hperm.nodup_iff, List.map_cons, List.nodup_cons]
  constructor
  · intro hmem
    obtain ⟨x, hx, hkey⟩ := List.mem_map.mp hmem
    have := (List.mem_filter.mp hx).2
    simp at this
    exact this hkey
  · exact List.Nodup.sublist ((List.filter_sublist _).map key) h

theorem find_key_some {α : Type} (key : α → JsVal) (k : JsVal) (store : List α) (a : α)
    (h : store.find? (fun r => decide (key r = k)) = some a) : a ∈ store ∧ key a = k := by
  refine ⟨List.mem_of_find?_eq_some h, ?_⟩
  have := List.find?_some h
  simpa using this

theorem find_key_none {α : Type} (key : α → JsVal) (k : JsVal) (store : List α)
    (h : ∀ r ∈ store, key r ≠ k) : store.find? (fun r => decide (key r = k)) = none := by
  rw [List.find?_eq_none]
  intro r hr
  simpa using h r hr

/-- C11, as the code has it: for every content of the song store and every identifier (a valid
key): when no stored record has it, `updateSongInDB(id, updates)` rejects with the error
`Not found` and the database afterwards is the one before; when the record `old` is stored
under it and `updates` does not set `id` to a value that is no key, the call resolves with the
merged record: each key has the value `updates` gives it, or the value of `old` when `updates`
does not have the key.  Afterwards the merged record is the one record stored under its `id`
(which is `id` itself when `updates` has no key `id`), and the records under other keys and
the favorites are as before. -/
theorem update_merges_or_not_found (db : DB) (id : JsVal) (updates : SongUpdates)
    (hkey : id.validKey = true) :
    ((∀ s ∈ db.songs, s.id ≠ id) →
      updateSongInDB db id updates = .error "Not found" ∧
      StoreOp.apply db (.updateSong id updates) = db) ∧
    (∀ old : Song, db.songs.find? (fun r => decide (r.id = id)) = some old →
      (∀ v, updates.id = some v → v.validKey = true) →
      ∃ merged db1, updateSongInDB db id updates = .ok (merged, db1) ∧
        StoreOp.apply db (.updateSong id updates) = db1 ∧
        old.id = id ∧ (updates.id = none → merged.id = id) ∧
        merged.id = updates.id.getD old.id ∧
        merged.name = updates.name.getD old.name ∧
        merged.artist = updates.artist.getD old.artist ∧
        merged.blob = updates.blob.getD old.blob ∧
        merged.url = updates.url.getD old.url ∧
        merged.cover = updates.cover.getD old.cover ∧
        merged.playCount = updates.playCount.getD old.playCount ∧
        merged.lastPlayed = updates.lastPlayed.getD old.lastPlayed ∧
        merged.lyrics = updates.lyrics.getD old.lyrics ∧
        merged.folder = updates.folder.getD old.folder ∧
        merged.favorite = updates.favorite.getD old.favorite ∧
        merged.isVirtual = updates.isVirtual.getD old.isVirtual ∧
        db1.songs.filter (fun r => decide (r.id = merged.id)) = [merged] ∧
        db1.songs.filter (fun r => decide (r.id ≠ merged.id)) =
          db.songs.filter (fun r => decide (r.id ≠ merged.id)) ∧
        db1.favorites = db.favorites) := by
  constructor
  · intro hno
    have hupd : updateSongInDB db id updates = .error "Not found" := by
      simp [updateSongInDB, storeGet, hkey, find_key_none Song.id id db.songs hno]
    exact ⟨hupd, by simp [StoreOp.apply, hupd]⟩
  · intro old hold hupdKey
    have holdId : old.id = id := (find_key_some Song.id id db.songs old hold).2
    have hvalid : (assign old updates).id.validKey = true := by
      show (updates.id.getD old.id).validKey = true
      cases hu : updates.id with
      | none => simpa [holdId] using hkey
      | some v => simpa using hupdKey v hu
    have hupd : updateSongInDB db id updates = .ok (assign old updates, DB.mk
        (List.orderedInsert (fun a b : Song => JsVal.keyLe a.id b.id = true)
          (assign old updates)
          (db.songs.filter (fun r => decide (r.id ≠ (assign old updates).id))))
        db.favorites) := by
      simp [updateSongInDB, storeGet, hkey, hold, storePut_eq Song.id _ _ hvalid]
    refine ⟨assign old updates, _, hupd, by simp [StoreOp.apply, hupd], holdId, ?_,
      rfl, rfl, rfl, rfl, rfl, rfl, rfl, rfl, rfl, rfl, rfl, rfl, ?_, ?_, rfl⟩
    · intro hnone
      simp [assign, hnone, holdId]
    · exact storePut_filter_key Song.id (assign old updates) db.songs
    · exact storePut_filter_others Song.id (assign old updates) db.songs

theorem update_merges_or_not_found_witness :
    (updateSongInDB { songs := [trackAlpha, trackBeta] } (.str "z") (playUpdates trackAlpha 7) =
        .error "Not found" ∧
      StoreOp.apply { songs := [trackAlpha, trackBeta] }
        (.updateSong (.str "z") (playUpdates trackAlpha 7)) =
          { songs := [trackAlpha, trackBeta] }) ∧
    (∃ merged db1,
      updateSongInDB { songs := [trackAlpha, trackBeta] } (.str "a") (playUpdates trackAlpha 7) =
        .ok (merged, db1) ∧
      StoreOp.apply { songs := [trackAlpha, trackBeta] }
        (.updateSong (.str "a") (playUpdates trackAlpha 7)) = db1 ∧
      trackAlpha.id = .str "a" ∧ ((playUpdates trackAlpha 7).id = none → merged.id = .str "a") ∧
      merged.id = (playUpdates trackAlpha 7).id.getD trackAlpha.id ∧
      merged.name = (playUpdates trackAlpha 7).name.getD trackAlpha.name ∧
      merged.artist = (playUpdates trackAlpha 7).artist.getD trackAlpha.artist ∧
      merged.blob = (playUpdates trackAlpha 7).blob.getD trackAlpha.blob ∧
      merged.url = (playUpdates trackAlpha 7).url.getD trackAlpha.url ∧
      merged.cover = (playUpdates trackAlpha 7).cover.getD trackAlpha.cover ∧
      merged.playCount = (playUpdates trackAlpha 7).playCount.getD trackAlpha.playCount ∧
      merged.lastPlayed = (playUpdates trackAlpha 7).lastPlayed.getD trackAlpha.lastPlayed ∧
      merged.lyrics = (playUpdates trackAlpha 7).lyrics.getD trackAlpha.lyrics ∧
      merged.folder = (playUpdates trackAlpha 7).folder.getD trackAlpha.folder ∧
      merged.favorite = (playUpdates trackAlpha 7).favorite.getD trackAlpha.favorite ∧
      merged.isVirtual = (playUpdates trackAlpha 7).isVirtual.getD trackAlpha.isVirtual ∧
      db1.songs.filter (fun r => decide (r.id = merged.id)) = [merged] ∧
      db1.songs.filter (fun r => decide (r.id ≠ merged.id)) =
        ({ songs := [trackAlpha, trackBeta] } : DB).songs.filter
          (fun r => decide (r.id ≠ merged.id)) ∧
      db1.favorites = ({ songs := [trackAlpha, trackBeta] } : DB).favorites) :=
  ⟨(update_merges_or_not_found { songs := [trackAlpha, trackBeta] } (.str "z")
      (playUpdates trackAlpha 7) (by decide)).1 (by decide),
    (update_merges_or_not_found { songs := [trackAlpha, trackBeta] } (.str "a")
      (playUpdates trackAlpha 7) (by decide)).2 trackAlpha rfl
      (by
        intro v hv
        cases hv)⟩

/-- C11 as stated fails on its success half.  The record `Alpha` is stored under `a`.  With the
updates `{ id: null }` the `put` of the merged record throws in the success callback, so the
call does not succeed: its promise never settles.  With the updates `{ id: "b", name: "Gamma" }`
the call resolves with the merged record, but stores it under `b`, in place of the record
`Beta`: the record stored under `a` is still `Alpha`, without the given fields. -/
theorem update_counterexample :
    ({ songs := [trackAlpha, trackBeta] } : DB).songs.find?
      (fun r => decide (r.id = .str "a")) = some trackAlpha ∧
    updateSongInDB { songs := [trackAlpha, trackBeta] } (.str "a") { id := some .null } =
      .error "Unsettled" ∧
    updateSongInDB { songs := [trackAlpha, trackBeta] } (.str "a")
        { id := some (.str "b"), name := some (.str "Gamma") } =
      .ok ({ trackAlpha with id := .str "b", name := .str "Gamma" },
        { songs := [trackAlpha, { trackAlpha with id := .str "b", name := .str "Gamma" }] }) :=
  ⟨rfl, rfl, rfl⟩

theorem StoreOp.apply_nodup (db : DB) (op : StoreOp) (h : (db.songs.map Song.id).Nodup) :
    ((StoreOp.apply db op).songs.map Song.id).Nodup := by
  cases op with
  | addSong songData uuid =>
    unfold StoreOp.apply addSongToDB storePut
    by_cases hk : (songData.id.or (.str uuid)).validKey = true
    · simp only [songPayload, hk, if_true]
      exact storePut_nodup Song.id _ db.songs h
    · simp only [songPayload, hk]
      exact h
  | updateSong id updates =>
    unfold StoreOp.apply updateSongInDB storeGet storePut
    by_cases hk : id.validKey = true
    · simp only [hk, if_true]
      cases hf : db.songs.find? (fun r => decide (r.id = id)) with
      | none => exact h
      | some old =>
        by_cases hv : (assign old updates).id.validKey = true
        · simp only [hv, if_true]
          exact storePut_nodup Song.id _ db.songs h
        · simp only [hv]
          exact h
    · simp only [hk]
      exact h
  | deleteSong id =>
    unfold StoreOp.apply deleteSongFromDB storeDelete
    by_cases hk : id.validKey = true
    · simp only [hk, if_true]
      exact List.Nodup.sublist ((List.filter_sublist _).map Song.id) h
    · simp only [hk]
      exact h

theorem runStoreOps_nodup (ops : List StoreOp) :
    ∀ db : DB, (db.songs.map Song.id).Nodup →
      ((runStoreOps db ops).songs.map Song.id).Nodup := by
  induction ops with
  | nil => intro db h; exact h
  | cons op rest ih =>
    intro db h
    exact ih (StoreOp.apply db op) (StoreOp.apply_nodup db op h)

theorem filter_key_length_le_one {α : Type} (key : α → JsVal) (l : List α)
    (h : (l.map key).Nodup) (k : JsVal) :
    (l.filter (fun x => decide (key x = k))).length ≤ 1 := by
  by_cases hex : ∃ a ∈ l, key a = k
  · obtain ⟨a, ha, rfl⟩ := hex
    rw [filter_key_eq_singleton key l h a ha]
    exact Nat.le_refl 1
  · have hnil : l.filter (fun x => decide (key x = k)) = [] := by
      rw [List.filter_eq_nil_iff]
      intro x hx hk
      exact hex ⟨x, hx, of_decide_eq_true hk⟩
    rw [hnil]
    exact Nat.zero_le 1

theorem length_split_key {α : Type} (key : α → JsVal) (l : List α) (k : JsVal) :
    l.length = (l.filter (fun x => decide (key x = k))).length +
      (l.filter (fun x => decide (key x ≠ k))).length := by
  rw [List.length_eq_countP_add_countP (fun x => decide (key x = k)) l,
    List.countP_eq_length_filter, List.countP_eq_length_filter]
  congr 2
  apply List.filter_congr
  intro x _
  simp

/-- C12: starting from the empty store, after any sequence of `addSongToDB`, `updateSongInDB`
and `deleteSongFromDB` calls, `getAllSongsFromDB()` holds at most one record with any given
`id`; and `addSongToDB` with an identifier (a truthy `id` that is a valid key) already present
resolves with that identifier and replaces the record stored under it: afterwards exactly one
record has it, the payload of the call, the records under other keys are as before, and the
store has as many records as before. -/
theorem song_ids_unique (ops : List StoreOp) :
    (∀ X : JsVal,
      ((getAllSongsFromDB (runStoreOps {} ops)).filter
        (fun s => decide (s.id = X))).length ≤ 1) ∧
    (∀ (songData : Song) (uuid : String),
      songData.id.truthy = true → songData.id.validKey = true →
      (∃ s ∈ (runStoreOps {} ops).songs, s.id = songData.id) →
      ∃ db1, addSongToDB (runStoreOps {} ops) songData uuid = .ok (songData.id, db1) ∧
        (getAllSongsFromDB db1).filter (fun s => decide (s.id = songData.id)) =
          [songPayload songData songData.id] ∧
        (getAllSongsFromDB db1).filter (fun s => decide (s.id ≠ songData.id)) =
          (runStoreOps {} ops).songs.filter (fun s => decide (s.id ≠ songData.id)) ∧
        (getAllSongsFromDB db1).length = (runStoreOps {} ops).songs.length) := by
  have hnodup : ((runStoreOps {} ops).songs.map Song.id).Nodup :=
    runStoreOps_nodup ops {} List.nodup_nil
  refine ⟨fun X => filter_key_length_le_one Song.id _ hnodup X, ?_⟩
  intro songData uuid htruthy hvalid hpresent
  generalize runStoreOps {} ops = db at hnodup hpresent ⊢
  have hor : songData.id.or (.str uuid) = songData.id := by simp [JsVal.or, htruthy]
  have hadd : addSongToDB db songData uuid = .ok (songData.id, DB.mk
      (List.orderedInsert (fun a b : Song => JsVal.keyLe a.id b.id = true)
        (songPayload songData songData.id)
        (db.songs.filter (fun r => decide (r.id ≠ songData.id))))
      db.favorites) := by
    unfold addSongToDB
    rw [hor]
    simp only []
    rw [storePut_eq Song.id (songPayload songData songData.id) db.songs hvalid]
    rfl
  refine ⟨_, hadd, ?_, ?_, ?_⟩
  · exact storePut_filter_key Song.id (songPayload songData songData.id) db.songs
  · exact storePut_filter_others Song.id (songPayload songData songData.id) db.songs
  · obtain ⟨s, hs, hsid⟩ := hpresent
    have hone := filter_key_eq_singleton Song.id db.songs hnodup s hs
    rw [hsid] at hone
    have hsplit := length_split_key Song.id db.songs songData.id
    rw [hone] at hsplit
    simp only [getAllSongsFromDB, List.orderedInsert_length, List.length_singleton] at hsplit ⊢
    have hpay : (songPayload songData songData.id).id = songData.id := rfl
    omega

theorem song_ids_unique_witness :
    ∃ db1,
      addSongToDB
          (runStoreOps {} [.addSong trackAlpha "u", .addSong trackBeta "v",
            .updateSong (.str "a") (playUpdates trackAlpha 7), .deleteSong (.str "b")])
          { trackAlpha with name := .str "Again" } "w" = .ok (trackAlpha.id, db1) ∧
        (getAllSongsFromDB db1).filter (fun s => decide (s.id = trackAlpha.id)) =
          [songPayload { trackAlpha with name := .str "Again" } trackAlpha.id] ∧
        (getAllSongsFromDB db1).filter (fun s => decide (s.id ≠ trackAlpha.id)) =
          (runStoreOps {} [.addSong trackAlpha "u", .addSong trackBeta "v",
            .updateSong (.str "a") (playUpdates trackAlpha 7),
            .deleteSong (.str "b")]).songs.filter (fun s => decide (s.id ≠ trackAlpha.id)) ∧
        (getAllSongsFromDB db1).length =
          (runStoreOps {} [.addSong trackAlpha "u", .addSong trackBeta "v",
            .updateSong (.str "a") (playUpdates trackAlpha 7),
            .deleteSong (.str "b")]).songs.length :=
  (song_ids_unique [.addSong trackAlpha "u", .addSong trackBeta "v",
    .updateSong (.str "a") (playUpdates trackAlpha 7), .deleteSong (.str "b")]).2
    { trackAlpha with name := .str "Again" } "w" (by decide) (by decide)
    ⟨assign trackAlpha (playUpdates trackAlpha 7), by decide, rfl⟩
/-! ## The favorites store -/

theorem StoreOp.apply_favorites (db : DB) (op : StoreOp) :
    (StoreOp.apply db op).favorites = db.favorites := by
  cases op with
  | addSong songData uuid =>
    unfold StoreOp.apply addSongToDB storePut
    by_cases hk : (songData.id.or (.str uuid)).validKey = true
    · simp only [songPayload, hk, if_true]
    · simp only [songPayload, hk]
      rfl
  | updateSong id updates =>
    unfold StoreOp.apply updateSongInDB storeGet storePut
    by_cases hk : id.validKey = true
    · simp only [hk, if_true]
      cases hf : db.songs.find? (fun r => decide (r.id = id)) with
      | none => rfl
      | some old =>
        by_cases hv : (assign old updates).id.validKey = true
        · simp only [hv, if_true]
        · simp only [hv]
          rfl
    · simp only [hk]
      rfl
  | deleteSong id =>
    unfold StoreOp.apply deleteSongFromDB storeDelete
    by_cases hk : id.validKey = true
    · simp only [hk, if_true]
    · simp only [hk]
      rfl

theorem runStoreOps_favorites (ops : List StoreOp) :
    ∀ db : DB, (runStoreOps db ops).favorites = db.favorites := by
  induction ops with
  | nil => intro db; rfl
  | cons op rest ih =>
    intro db
    show (runStoreOps (StoreOp.apply db op) rest).favorites = db.favorites
    rw [ih, StoreOp.apply_favorites]

theorem addFavorite_invalid_iff (db : DB) (song : Option Song) (now : Int) :
    addFavorite db song now = .error "addFavorite requires full song object with stable id" ↔
      song = none ∨ ∃ s, song = some s ∧ s.id.truthy = false := by
  cases song with
  | none => simp [addFavorite]
  | some s =>
    unfold addFavorite storePut
    by_cases ht : s.id.truthy = true
    · have hne : ¬ s.id.truthy = false := by simp [ht]
      by_cases hk : (favoriteClone s now).songId.validKey = true
      · simp [ht, hk]
      · simp [ht, hk]
    · have hf : s.id.truthy = false := by simpa using ht
      simp [hf]

/-- C14, as the code has it: `addFavorite` rejects with its invalid-argument error exactly
when the record is missing or its `id` is falsy; for a record with an identifier (a truthy `id`
that is a valid key) it succeeds, the song store is as before, and the favorites store then
holds exactly one snapshot with that `songId`: its name and artist are the record's, and each
of its blob, url, cover, lyrics and folder is the record's when that is truthy and `null`
otherwise; no later sequence of `addSongToDB`, `updateSongInDB` and `deleteSongFromDB` calls
changes the favorites store. -/
theorem favorite_snapshot_stored (db : DB) (song : Option Song) (now : Int) :
    (addFavorite db song now = .error "addFavorite requires full song object with stable id" ↔
      song = none ∨ ∃ s, song = some s ∧ s.id.truthy = false) ∧
    (∀ s : Song, song = some s → s.id.truthy = true → s.id.validKey = true →
      ∃ db1 snap, addFavorite db song now = .ok db1 ∧ db1.songs = db.songs ∧
        (getFavorites db1).filter (fun f => decide (f.songId = s.id)) = [snap] ∧
        snap.name = s.name ∧ snap.artist = s.artist ∧
        snap.blob = (if s.blob.truthy then s.blob else .null) ∧
        snap.url = (if s.url.truthy then s.url else .null) ∧
        snap.cover = (if s.cover.truthy then s.cover else .null) ∧
        snap.lyrics = (if s.lyrics.truthy then s.lyrics else .null) ∧
        snap.folder = (if s.folder.truthy then s.folder else .null) ∧
        ∀ ops : List StoreOp, getFavorites (runStoreOps db1 ops) = getFavorites db1) := by
  refine ⟨addFavorite_invalid_iff db song now, ?_⟩
  intro s hs htruthy hvalid
  subst hs
  have hadd : addFavorite db (some s) now = .ok (DB.mk db.songs
      (List.orderedInsert (fun a b : Favorite => JsVal.keyLe a.songId b.songId = true)
        (favoriteClone s now)
        (db.favorites.filter (fun r => decide (r.songId ≠ (favoriteClone s now).songId))))) := by
    unfold addFavorite
    simp only [htruthy, Bool.not_true, Bool.false_eq_true, if_false]
    rw [storePut_eq Favorite.songId (favoriteClone s now) db.favorites hvalid]
  refine ⟨_, favoriteClone s now, hadd, rfl, ?_, rfl, rfl, rfl, rfl, rfl, rfl, rfl, ?_⟩
  · exact storePut_filter_key Favorite.songId (favoriteClone s now) db.favorites
  · intro ops
    exact runStoreOps_favorites ops _

theorem favorite_snapshot_stored_witness :
    ∃ db1 snap, addFavorite { songs := [trackAlpha] } (some trackAlpha) 7 = .ok db1 ∧
      db1.songs = [trackAlpha] ∧
      (getFavorites db1).filter (fun f => decide (f.songId = trackAlpha.id)) = [snap] ∧
      snap.name = trackAlpha.name ∧ snap.artist = trackAlpha.artist ∧
      snap.blob = (if trackAlpha.blob.truthy then trackAlpha.blob else .null) ∧
      snap.url = (if trackAlpha.url.truthy then trackAlpha.url else .null) ∧
      snap.cover = (if trackAlpha.cover.truthy then trackAlpha.cover else .null) ∧
      snap.lyrics = (if trackAlpha.lyrics.truthy then trackAlpha.lyrics else .null) ∧
      snap.folder = (if trackAlpha.folder.truthy then trackAlpha.folder else .null) ∧
      ∀ ops : List StoreOp, getFavorites (runStoreOps db1 ops) = getFavorites db1 :=
  (favorite_snapshot_stored { songs := [trackAlpha] } (some trackAlpha) 7).2 trackAlpha rfl
    (by decide) (by decide)

/-- C14 as stated fails: `addFavorite` succeeds on the record `songEmptyUrl`, whose url is the
empty string, and the one snapshot stored for it has the url `null`, not the record's. -/
theorem favorite_snapshot_counterexample :
    addFavorite {} (some songEmptyUrl) 7 = .ok { favorites := [favoriteClone songEmptyUrl 7] } ∧
    songEmptyUrl.url = .str "" ∧ (favoriteClone songEmptyUrl 7).url = .null ∧
    (favoriteClone songEmptyUrl 7).url ≠ songEmptyUrl.url :=
  ⟨rfl, rfl, rfl, by decide⟩
/-! ## Playback handles -/

theorem playSongAtIndex_handles (p : Player) (db : DB) (i : Nat) (now : Int) :
    ((playSongAtIndex p db i now).1.created = p.created ∧
      (playSongAtIndex p db i now).1.revoked = p.revoked ∧
      (playSongAtIndex p db i now).1.currentBlobURL = p.currentBlobURL ∧
      (playSongAtIndex p db i now).1.currentBlobUrl = p.currentBlobUrl) ∨
    ((playSongAtIndex p db i now).1.created = p.created + 1 ∧
      (playSongAtIndex p db i now).1.revoked = p.revoked ++ p.currentBlobURL.toList ∧
      (playSongAtIndex p db i now).1.currentBlobURL = some p.created ∧
      (playSongAtIndex p db i now).1.currentBlobUrl = p.currentBlobUrl) := by
  unfold playSongAtIndex
  cases p.songs.get? i with
  | none => exact Or.inl ⟨rfl, rfl, rfl, rfl⟩
  | some song =>
    simp only []
    cases resolveSourceBlob db song with
    | none => exact Or.inl ⟨rfl, rfl, rfl, rfl⟩
    | some b =>
      simp only []
      by_cases hb : (b.size = 0 || !startsWith b.type "audio/") = true
      · rw [if_pos hb]
        exact Or.inl ⟨rfl, rfl, rfl, rfl⟩
      · rw [if_neg hb]
        refine Or.inr ⟨rfl, ?_, rfl, rfl⟩
        cases p.currentBlobURL <;> simp

theorem setAudioSrc_handles (p : Player) (source : JsVal) :
    ((setAudioSrc p source).created = p.created ∧
      (setAudioSrc p source).revoked = p.revoked ++ p.currentBlobUrl.toList ∧
      (setAudioSrc p source).currentBlobUrl = none ∧
      (setAudioSrc p source).currentBlobURL = p.currentBlobURL) ∨
    ((setAudioSrc p source).created = p.created + 1 ∧
      (setAudioSrc p source).revoked = p.revoked ++ p.currentBlobUrl.toList ∧
      (setAudioSrc p source).currentBlobUrl = some p.created ∧
      (setAudioSrc p source).currentBlobURL = p.currentBlobURL) := by
  unfold setAudioSrc
  cases hslot : p.currentBlobUrl <;> cases source <;> simp [hslot]

theorem playDirectFromRecord_fst (p : Player) (db : DB) (rec : Song) (now : Int) :
    (playDirectFromRecord p db (some rec) now).1 = setAudioSrc p (rec.blob.or rec.url) := by
  unfold playDirectFromRecord
  simp only []
  cases hupd : updateSongInDB db rec.id (playUpdates rec now) <;> rfl

theorem slotReleases_create (slot : Option Nat) (created : Nat) (revoked : List Nat)
    (h : slotReleases slot created revoked) :
    slotReleases (some created) (created + 1) (revoked ++ slot.toList) := by
  intro k hk
  rcases Nat.lt_succ_iff_lt_or_eq.mp hk with hlt | heq
  · left
    rcases h k hlt with hr | ⟨hs, _⟩
    · exact List.mem_append_left _ hr
    · rw [hs]
      simp
  · right
    exact ⟨by rw [heq], by rw [heq]⟩

theorem slotReleases_release (slot : Option Nat) (created : Nat) (revoked : List Nat)
    (h : slotReleases slot created revoked) :
    slotReleases none created (revoked ++ slot.toList) := by
  intro k hk
  left
  rcases h k hk with hr | ⟨hs, _⟩
  · exact List.mem_append_left _ hr
  · rw [hs]
    simp

theorem slotReleases_allButLast (p : Player) (slot : Option Nat)
    (h : slotReleases slot p.created p.revoked) : p.allButLastReleased := by
  intro k hk
  rcases h k (Nat.lt_of_succ_lt hk) with hr | ⟨_, hlast⟩
  · exact hr
  · omega

/-- Playback starts through `playSongAtIndex` alone release every object URL but the last. -/
theorem atIndex_starts_release (starts : List PlaybackStart)
    (hall : ∀ st ∈ starts, ∃ i now, st = .atIndex i now) :
    ∀ s : Player × DB, s.1.currentBlobUrl = none →
      slotReleases s.1.currentBlobURL s.1.created s.1.revoked →
      (runStarts s starts).1.allButLastReleased := by
  induction starts with
  | nil =>
    intro s _ h
    exact slotReleases_allButLast s.1 _ h
  | cons st rest ih =>
    intro s hnone h
    obtain ⟨i, now, rfl⟩ := hall _ (List.mem_cons_self _ _)
    have hrest : ∀ st ∈ rest, ∃ i now, st = .atIndex i now :=
      fun st hst => hall st (List.mem_cons_of_mem _ hst)
    show (runStarts (playSongAtIndex s.1 s.2 i now) rest).1.allButLastReleased
    rcases playSongAtIndex_handles s.1 s.2 i now with ⟨hc, hr, hU, hu⟩ | ⟨hc, hr, hU, hu⟩
    · apply ih hrest _ (by rw [hu]; exact hnone)
      rw [hc, hr, hU]
      exact h
    · apply ih hrest _ (by rw [hu]; exact hnone)
      rw [hc, hr, hU]
      exact slotReleases_create _ _ _ h

/-- Playback starts through `playDirectFromRecord` alone release every object URL but the
last. -/
theorem fromRecord_starts_release (starts : List PlaybackStart)
    (hall : ∀ st ∈ starts, ∃ rec now, st = .fromRecord rec now) :
    ∀ s : Player × DB, s.1.currentBlobURL = none →
      slotReleases s.1.currentBlobUrl s.1.created s.1.revoked →
      (runStarts s starts).1.allButLastReleased := by
  induction starts with
  | nil =>
    intro s _ h
    exact slotReleases_allButLast s.1 _ h
  | cons st rest ih =>
    intro s hnone h
    obtain ⟨rec, now, rfl⟩ := hall _ (List.mem_cons_self _ _)
    have hrest : ∀ st ∈ rest, ∃ rec now, st = .fromRecord rec now :=
      fun st hst => hall st (List.mem_cons_of_mem _ hst)
    show (runStarts (playDirectFromRecord s.1 s.2 (some rec) now) rest).1.allButLastReleased
    have hfst := playDirectFromRecord_fst s.1 s.2 rec now
    rcases setAudioSrc_handles s.1 (rec.blob.or rec.url) with
      ⟨hc, hr, hu, hU⟩ | ⟨hc, hr, hu, hU⟩
    · apply ih hrest _ (by rw [hfst, hU]; exact hnone)
      rw [hfst, hc, hr, hu]
      exact slotReleases_release _ _ _ h
    · apply ih hrest _ (by rw [hfst, hU]; exact hnone)
      rw [hfst, hc, hr, hu]
      exact slotReleases_create _ _ _ h

/-- C13 fails on the code: with the list filtered to `Alpha`, `playSongAtIndex(0)` creates
object URL 0 and keeps it in `currentBlobURL`; `playDirectFromRecord` for the history record
`Beta` then goes through `setAudioSrc`, which looks at `currentBlobUrl`, finds it empty, revokes
nothing and creates object URL 1.  Object URL 0 is not the most recent one and was not
released. -/
theorem handle_leak_across_paths :
    loadPlaylist asciiLower { songs := [trackAlpha, trackBetaPlayed] } "alp" =
      .ok ({ songs := [trackAlpha, trackBetaPlayed] }, [trackAlpha]) ∧
    (runStarts ({ songs := [trackAlpha] }, { songs := [trackAlpha, trackBetaPlayed] })
      [.atIndex 0 5, .fromRecord trackBetaPlayed 6]).1.created = 2 ∧
    (runStarts ({ songs := [trackAlpha] }, { songs := [trackAlpha, trackBetaPlayed] })
      [.atIndex 0 5, .fromRecord trackBetaPlayed 6]).1.revoked = [] ∧
    unreleased (runStarts ({ songs := [trackAlpha] }, { songs := [trackAlpha, trackBetaPlayed] })
      [.atIndex 0 5, .fromRecord trackBetaPlayed 6]).1 = [0, 1] ∧
    (runStarts ({ songs := [trackAlpha] }, { songs := [trackAlpha, trackBetaPlayed] })
      [.atIndex 0 5, .fromRecord trackBetaPlayed 6]).1.currentBlobURL = some 0 ∧
    (runStarts ({ songs := [trackAlpha] }, { songs := [trackAlpha, trackBetaPlayed] })
      [.atIndex 0 5, .fromRecord trackBetaPlayed 6]).1.currentBlobUrl = some 1 ∧
    ¬ (runStarts ({ songs := [trackAlpha] }, { songs := [trackAlpha, trackBetaPlayed] })
      [.atIndex 0 5, .fromRecord trackBetaPlayed 6]).1.allButLastReleased := by
  refine ⟨rfl, rfl, rfl, rfl, rfl, rfl, ?_⟩
  intro h
  have h0 := h 0 (by decide)
  exact absurd h0 (by decide)
/-! ## Playback of an entry without audio data -/

theorem resolveSourceBlob_not_audio (db : DB) (song : Song)
    (hmain : ∀ b, song.blob = .blob b → audioBlob b = false)
    (hsnap : ∀ f ∈ db.favorites, f.songId = song.id → ∀ b, f.blob = .blob b →
      audioBlob b = false) :
    ∀ b, resolveSourceBlob db song = some b → audioBlob b = false := by
  intro b hb
  have hsource : resolveSourceBlob db song =
      (match song.blob with
        | .blob b => some b
        | _ => none) := by
    unfold resolveSourceBlob getFavorites
    have hvalid : (match (match song.blob with
          | .blob b => some b
          | _ => none : Option Blob) with
        | some b => audioBlob b
        | none => false) = false := by
      cases hs : song.blob <;> simp
      exact hmain _ hs
    simp only [hvalid, Bool.not_false, if_true]
    cases hf : db.favorites.find? (fun f => decide (f.songId = song.id)) with
    | none => rfl
    | some snap =>
      obtain ⟨hmem, hid⟩ := find_key_some Favorite.songId song.id db.favorites snap hf
      simp only []
      cases hsb : snap.blob with
      | blob sb => simp [hsnap snap hmem hid sb hsb]
      | _ => rfl
  rw [hsource] at hb
  cases hs : song.blob with
  | blob b0 =>
    rw [hs] at hb
    have : b0 = b := Option.some.inj hb
    subst this
    exact hmain _ hs
  | _ => rw [hs] at hb; cases hb

theorem playSongAtIndex_stops (p : Player) (db : DB) (i : Nat) (now : Int) (song : Song)
    (hsong : p.songs.get? i = some song)
    (hmain : ∀ b, song.blob = .blob b → audioBlob b = false)
    (hsnap : ∀ f ∈ db.favorites, f.songId = song.id → ∀ b, f.blob = .blob b →
      audioBlob b = false) :
    playSongAtIndex p db i now =
      ({ p with index := i, alerts := p.alerts ++ [song.name] }, db) := by
  unfold playSongAtIndex
  rw [hsong]
  simp only []
  cases hres : resolveSourceBlob db song with
  | none => rfl
  | some b =>
    have hb := resolveSourceBlob_not_audio db song hmain hsnap b hres
    have hstop : (b.size = 0 || !startsWith b.type "audio/") = true := by
      unfold audioBlob at hb
      cases hst : startsWith b.type "audio/"
      · simp
      · rw [hst] at hb
        simp at hb
        simp [hb]
    simp only [hstop, if_true]

/-- C15, as the code has it: when the requested entry has no valid binary payload (a `Blob`
of positive size and `audio/` type) and no url, and neither has its favorite snapshot,
`playSongAtIndex(i)` ends on the alert that the entry cannot be played; afterwards the current
index is the requested `i`, and the list, both object-URL variables, the audio source, the
object URLs created and revoked, and the database are what they were. -/
theorem unplayable_entry_stops (p : Player) (db : DB) (i : Nat) (now : Int) (song : Song)
    (hsong : p.songs.get? i = some song)
    (hmain : ∀ b, song.blob = .blob b → audioBlob b = false)
    (_hurl : song.url.truthy = false)
    (hsnap : ∀ f ∈ db.favorites, f.songId = song.id →
      (∀ b, f.blob = .blob b → audioBlob b = false) ∧ f.url.truthy = false) :
    ∃ q, playSongAtIndex p db i now = (q, db) ∧
      q.alerts = p.alerts ++ [song.name] ∧ q.index = i ∧ q.songs = p.songs ∧
      q.currentBlobURL = p.currentBlobURL ∧ q.currentBlobUrl = p.currentBlobUrl ∧
      q.audioSrc = p.audioSrc ∧ q.created = p.created ∧ q.revoked = p.revoked :=
  ⟨_, playSongAtIndex_stops p db i now song hsong hmain
    (fun f hf hid => (hsnap f hf hid).1), rfl, rfl, rfl, rfl, rfl, rfl, rfl, rfl⟩

theorem unplayable_entry_stops_witness :
    ∃ q, playSongAtIndex { songs := [trackAlpha, songBroken] }
        { songs := [trackAlpha, songBroken] } 1 5 = (q, { songs := [trackAlpha, songBroken] }) ∧
      q.alerts = ({ songs := [trackAlpha, songBroken] } : Player).alerts ++ [songBroken.name] ∧
      q.index = 1 ∧ q.songs = [trackAlpha, songBroken] ∧
      q.currentBlobURL = none ∧ q.currentBlobUrl = none ∧
      q.audioSrc = .empty ∧ q.created = 0 ∧ q.revoked = [] :=
  unplayable_entry_stops { songs := [trackAlpha, songBroken] }
    { songs := [trackAlpha, songBroken] } 1 5 songBroken rfl
    (by
      intro b hb
      have hb0 : b = ⟨0, "audio/mpeg"⟩ := (JsVal.blob.inj hb).symm
      rw [hb0]
      rfl)
    rfl
    (by
      intro f hf
      cases hf)

/-- C15 as stated fails: with the current index 0, `playSongAtIndex(1)` on an entry with a
zero-length payload and no url ends on the alert and leaves the current index at 1, not 0; and
`playSongAtIndex(0)` on an entry with a non-empty url and no payload ends on the alert that the
entry cannot be played. -/
theorem unplayable_entry_counterexample :
    (playSongAtIndex { songs := [trackAlpha, songBroken], index := 0 }
        { songs := [trackAlpha, songBroken] } 1 5).1.index = 1 ∧
    (playSongAtIndex { songs := [trackAlpha, songBroken], index := 0 }
        { songs := [trackAlpha, songBroken] } 1 5).1.alerts = [.str "Broken"] ∧
    songUrlOnly.url.nonEmptyString = true ∧
    playSongAtIndex { songs := [songUrlOnly] } { songs := [songUrlOnly] } 0 5 =
      ({ songs := [songUrlOnly], alerts := [.str "Remote"] }, { songs := [songUrlOnly] }) :=
  ⟨rfl, rfl, rfl, rfl⟩

end MusicPlayer
